import Mathlib

/-!
# Tic-tac-toe on an ATmega328P: a shallow embedding of `src/tic-tac-toe.c`

The C program keeps its game in global variables (`board`, `player_turn`,
`winner`, `cpu_is_playing`).  Here every function of the program becomes a
pure function that receives the globals it reads and returns the globals it
writes.  All machine values are `uint8_t`; they are modelled as `Nat`, and
none of the modelled operations can leave the range `0..255`.
-/

namespace TicTacToe

/-! ## Constants and the board -/

/-- The C macro `TRUE`. -/
def TRUE : Nat := 1

/-- The C macro `FALSE`. -/
def FALSE : Nat := 0

/-- The global `uint8_t board[9]`: 0 is not played, 1 is player 1 and 2 is
player 2.  Field `ck` is `board[k]`. -/
structure Board where
  c0 : Nat
  c1 : Nat
  c2 : Nat
  c3 : Nat
  c4 : Nat
  c5 : Nat
  c6 : Nat
  c7 : Nat
  c8 : Nat
deriving DecidableEq, Repr

namespace Board

/-- The array read `board[i]`.  Every read of the program has `i < 9`; the
value given to an index outside the array is never used. -/
def get (b : Board) (i : Nat) : Nat :=
  match i with
  | 0 => b.c0
  | 1 => b.c1
  | 2 => b.c2
  | 3 => b.c3
  | 4 => b.c4
  | 5 => b.c5
  | 6 => b.c6
  | 7 => b.c7
  | 8 => b.c8
  | _ => 0

/-- The array write `board[i] = v`.  Every write of the program is guarded
by `i <= 8`. -/
def set (b : Board) (i : Nat) (v : Nat) : Board :=
  match i with
  | 0 => { b with c0 := v }
  | 1 => { b with c1 := v }
  | 2 => { b with c2 := v }
  | 3 => { b with c3 := v }
  | 4 => { b with c4 := v }
  | 5 => { b with c5 := v }
  | 6 => { b with c6 := v }
  | 7 => { b with c7 := v }
  | 8 => { b with c8 := v }
  | _ => b

/-- The initial value of the global `board`. -/
def empty : Board := ⟨0, 0, 0, 0, 0, 0, 0, 0, 0⟩

/-- The cells of a board in index order. -/
def toList (b : Board) : List Nat :=
  [b.c0, b.c1, b.c2, b.c3, b.c4, b.c5, b.c6, b.c7, b.c8]

end Board

/-- The function `location`: the index of the cell at row `r`, column `c`,
and 255 for a coordinate outside the grid. -/
def location (r c : Nat) : Nat :=
  if r < 3 ∧ c < 3 then r * 3 + c else 0xFF

/-! ## Board manipulation -/

/-- The function `copy_board`: the static array `copy` receives the nine
cells one by one. -/
def copy_board (board : Board) : Board :=
  let copy := Board.empty
  let copy := copy.set 0 (board.get 0)
  let copy := copy.set 1 (board.get 1)
  let copy := copy.set 2 (board.get 2)
  let copy := copy.set 3 (board.get 3)
  let copy := copy.set 4 (board.get 4)
  let copy := copy.set 5 (board.get 5)
  let copy := copy.set 6 (board.get 6)
  let copy := copy.set 7 (board.get 7)
  let copy := copy.set 8 (board.get 8)
  copy

/-- The function `rotate`, statement by statement: two temporaries and
eight assignments through the pointer. -/
def rotate (board : Board) : Board :=
  let temp5 := board.get 5
  let temp8 := board.get 8
  let board := board.set 8 (board.get 2)
  let board := board.set 5 (board.get 1)
  let board := board.set 2 (board.get 0)
  let board := board.set 1 (board.get 3)
  let board := board.set 0 (board.get 6)
  let board := board.set 3 (board.get 7)
  let board := board.set 6 temp8
  let board := board.set 7 temp5
  board

/-! ## Game over and win states -/

/-- The eight lines of the grid: three rows, three columns, two diagonals. -/
def lines : List (Nat × Nat × Nat) :=
  [(0, 1, 2), (3, 4, 5), (6, 7, 8), (0, 3, 6), (1, 4, 7), (2, 5, 8), (0, 4, 8), (2, 4, 6)]

/-- Player `p` holds all three cells of line `l`. -/
def Board.holdsLine (b : Board) (p : Nat) (l : Nat × Nat × Nat) : Prop :=
  b.get l.1 = p ∧ b.get l.2.1 = p ∧ b.get l.2.2 = p

/-- Player `p` has a completed line. -/
def Board.hasLine (b : Board) (p : Nat) : Prop :=
  ∃ l, l ∈ lines ∧ b.holdsLine p l

/-- The `for(i = 0; i < 3; i++)` loop of `game_winner`: `n` iterations are
left, `i` is the loop variable.  The result is `true` when the loop returns
`TRUE` and `false` when it runs to its end. -/
def game_winner_loop (board : Board) (b : Nat) : Nat → Nat → Bool
  | 0, _ => false
  | n + 1, i =>
    if board.get (location i 0) = b ∧
       board.get (location i 1) = b ∧
       board.get (location i 2) = b then true
    else if board.get (location 0 i) = b ∧
            board.get (location 1 i) = b ∧
            board.get (location 2 i) = b then true
    else game_winner_loop board b n (i + 1)

/-- The function `game_winner`. -/
def game_winner (board : Board) (is_player_1 : Nat) : Nat :=
  let b := if is_player_1 ≠ 0 then 1 else 2
  if game_winner_loop board b 3 0 then TRUE
  else if board.get 4 = b ∧
      ((board.get 0 = b ∧ board.get 8 = b) ∨ (board.get 2 = b ∧ board.get 6 = b)) then TRUE
  else FALSE

/-- The `for(uint8_t i = 0; i < 9; i++)` loop of `game_is_over`: `true` when
it returns `FALSE` at an empty cell, `false` when it runs to its end. -/
def has_empty_loop (board : Board) : Nat → Nat → Bool
  | 0, _ => false
  | n + 1, i => if board.get i = 0 then true else has_empty_loop board n (i + 1)

/-- The function `game_is_over`: from the board and the current value of the
global `winner` to the returned value and the new value of `winner`. -/
def game_is_over (board : Board) (winner : Nat) : Nat × Nat :=
  if game_winner board TRUE ≠ 0 then (TRUE, 1)
  else if game_winner board FALSE ≠ 0 then (TRUE, 2)
  else if has_empty_loop board 9 0 then (FALSE, winner)
  else (TRUE, 3)

/-! ## Input -/

/-- The inner `for(r = 0; r < 3; r++)` loop of `get_btn_pressed` for column
`c`.  The register `BTN_PIN` is volatile: `pin k` is the value of its `k`-th
read since the call began, and `k` counts the reads made so far.  `n`
iterations are left.  The result is the returned index, if the loop returns,
and the number of reads made. -/
def get_btn_pressed_rows (board : Board) (pin : Nat → Nat) (c : Nat) :
    Nat → Nat → Nat → Option Nat × Nat
  | 0, _, k => (none, k)
  | n + 1, r, k =>
    if pin k &&& (0x04 >>> r) = 0 ∧ board.get (location r c) = 0 then
      if pin (k + 1) &&& (0x04 >>> r) = 0 then (some (location r c), k + 2)
      else get_btn_pressed_rows board pin c n (r + 1) (k + 2)
    else get_btn_pressed_rows board pin c n (r + 1) (k + 1)

/-- The outer `for(c = 0; c < 3; c++)` loop of `get_btn_pressed`.  The
writes to `BTN_DDR` select the column; their effect on the pins is part of
the arbitrary read sequence `pin`. -/
def get_btn_pressed_cols (board : Board) (pin : Nat → Nat) : Nat → Nat → Nat → Nat
  | 0, _, _ => 0xFF
  | n + 1, c, k =>
    match get_btn_pressed_rows board pin c 3 0 k with
    | (some loc, _) => loc
    | (none, k1) => get_btn_pressed_cols board pin n (c + 1) k1

/-- The function `get_btn_pressed`. -/
def get_btn_pressed (board : Board) (pin : Nat → Nat) : Nat :=
  get_btn_pressed_cols board pin 3 0 0

/-! ## Computer -/

/-- The function `check_sides`. -/
def check_sides (board : Board) : Nat :=
  if board.get 1 = 0 then 1
  else if board.get 5 = 0 then 5
  else if board.get 7 = 0 then 7
  else if board.get 3 = 0 then 3
  else 0xFF

/-- The function `check_corners`.  It calls itself once, with `FALSE`, and
that call does not recurse; `depth` bounds the nesting of calls and its zero
case is never reached from `check_corners`. -/
def check_corners_rec : Nat → Board → Nat → Nat
  | 0, _, _ => 0xFF
  | depth + 1, board, player_1_opposite =>
    if player_1_opposite ≠ 0 then
      if board.get 0 = 0 ∧ board.get 8 = 1 then 0
      else if board.get 2 = 0 ∧ board.get 6 = 1 then 2
      else if board.get 8 = 0 ∧ board.get 0 = 1 then 8
      else if board.get 6 = 0 ∧ board.get 2 = 1 then 6
      else check_corners_rec depth board FALSE
    else
      if board.get 0 = 0 then 0
      else if board.get 2 = 0 then 2
      else if board.get 8 = 0 then 8
      else if board.get 6 = 0 then 6
      else 0xFF

/-- The function `check_corners`. -/
def check_corners (board : Board) (player_1_opposite : Nat) : Nat :=
  check_corners_rec 2 board player_1_opposite

/-- The chain of pattern tests in the loop body of `check_wins_or_losses`,
on the rotated copy `t` at loop index `i`: the returned location, or `none`
when no test matches and the loop goes on. -/
def wins_or_losses_patterns (b : Nat) (t : Board) (i : Nat) : Option Nat :=
  -- sides
  if t.get 0 = 0 ∧ t.get 1 = b ∧ t.get 2 = b then
    if i = 0 then some 0
    else if i = 1 then some 6
    else if i = 2 then some 8
    else some 2
  else if t.get 0 = b ∧ t.get 1 = 0 ∧ t.get 2 = b then
    if i = 0 then some 1
    else if i = 1 then some 3
    else if i = 2 then some 7
    else some 5
  else if t.get 0 = b ∧ t.get 1 = b ∧ t.get 2 = 0 then
    if i = 0 then some 2
    else if i = 1 then some 0
    else if i = 2 then some 6
    else some 8
  -- middles
  else if t.get 1 = b ∧ t.get 4 = b ∧ t.get 7 = 0 then
    if i = 0 then some 7
    else if i = 1 then some 5
    else if i = 2 then some 1
    else some 3
  else if t.get 1 = b ∧ t.get 4 = 0 ∧ t.get 7 = b then some 4
  -- diagonals
  else if t.get 0 = b ∧ t.get 4 = b ∧ t.get 8 = 0 then
    if i = 0 then some 8
    else if i = 1 then some 2
    else if i = 2 then some 0
    else some 6
  else if t.get 0 = b ∧ t.get 4 = 0 ∧ t.get 8 = b then some 4
  else none

/-- The `for(i = 0; i < 4; i++)` loop of `check_wins_or_losses`: `n`
iterations are left, `i` is the loop variable and `t` the copy as rotated so
far. -/
def check_wins_or_losses_loop (b : Nat) : Nat → Nat → Board → Option Nat
  | 0, _, _ => none
  | n + 1, i, t =>
    let t := if i ≠ 0 then rotate t else t
    match wins_or_losses_patterns b t i with
    | some loc => some loc
    | none => check_wins_or_losses_loop b n (i + 1) t

/-- The function `check_wins_or_losses`.  It calls itself once, with
`FALSE`, and that call does not recurse; `depth` bounds the nesting of calls
and its zero case is never reached from `check_wins_or_losses`. -/
def check_wins_or_losses_rec : Nat → Board → Nat → Nat
  | 0, _, _ => 0xFF
  | depth + 1, board, is_computer =>
    let b := if is_computer ≠ 0 then 2 else 1
    let t := copy_board board
    match check_wins_or_losses_loop b 4 0 t with
    | some loc => loc
    | none =>
      if is_computer ≠ 0 then check_wins_or_losses_rec depth board FALSE
      else 0xFF

/-- The function `check_wins_or_losses`. -/
def check_wins_or_losses (board : Board) (is_computer : Nat) : Nat :=
  check_wins_or_losses_rec 2 board is_computer

/-- The two pattern tests in the loop body of `check_fork_states`, on the
rotated copy `t` at loop index `i`.  `check_sides` reads the global board,
not the copy. -/
def fork_patterns (board : Board) (is_computer b : Nat) (t : Board) (i : Nat) : Option Nat :=
  if t.get 2 = 0 ∧ t.get 4 = b ∧ t.get 6 = 0 ∧ t.get 7 = 0 ∧ t.get 8 = b then
    if i = 0 then some 6
    else if i = 1 then some 8
    else if i = 2 then some 2
    else some 0
  else if t.get 0 = b ∧ t.get 3 = 0 ∧ t.get 6 = 0 ∧ t.get 7 = 0 ∧ t.get 8 = b then
    if is_computer ≠ 0 then
      if i = 0 then some 6
      else if i = 1 then some 8
      else if i = 2 then some 2
      else some 0
    else
      let location := check_sides board
      if location ≤ 8 then some location else none
  else none

/-- The `for(i = 0; i < 4; i++)` loop of `check_fork_states`. -/
def check_fork_states_loop (board : Board) (is_computer b : Nat) : Nat → Nat → Board → Option Nat
  | 0, _, _ => none
  | n + 1, i, t =>
    let t := if i ≠ 0 then rotate t else t
    match fork_patterns board is_computer b t i with
    | some loc => some loc
    | none => check_fork_states_loop board is_computer b n (i + 1) t

/-- The function `check_fork_states`, with `depth` as in
`check_wins_or_losses_rec`. -/
def check_fork_states_rec : Nat → Board → Nat → Nat
  | 0, _, _ => 0xFF
  | depth + 1, board, is_computer =>
    let b := if is_computer ≠ 0 then 2 else 1
    let t := copy_board board
    match check_fork_states_loop board is_computer b 4 0 t with
    | some loc => loc
    | none =>
      if is_computer ≠ 0 then check_fork_states_rec depth board FALSE
      else 0xFF

/-- The function `check_fork_states`. -/
def check_fork_states (board : Board) (is_computer : Nat) : Nat :=
  check_fork_states_rec 2 board is_computer

/-- The function `cpu_turn`: from the global board to the global board.  The
one-second delay has no effect on the board. -/
def cpu_turn (board : Board) : Board :=
  -- check for possible wins or losses
  let location := check_wins_or_losses board TRUE
  if location ≤ 8 then board.set location 2
  else
    -- check for possible fork states
    let location := check_fork_states board TRUE
    if location ≤ 8 then board.set location 2
    else
      -- play the center if it is clear
      if board.get 4 = 0 then board.set 4 2
      else
        -- play on a corner opposite of the player or any corner that is free
        let location := check_corners board TRUE
        if location ≤ 8 then board.set location 2
        else
          -- play on an empty side
          let location := check_sides board
          if location ≤ 8 then board.set location 2
          else board

/-! ## Main -/

/-- The globals the main loop works on. -/
structure State where
  board : Board
  player_turn : Nat
  winner : Nat
  cpu_is_playing : Nat
deriving DecidableEq, Repr

/-- The globals as initialised, with the mode flag read at start-up. -/
def State.init (cpu_is_playing : Nat) : State :=
  { board := Board.empty, player_turn := 1, winner := 0, cpu_is_playing := cpu_is_playing }

/-- One pass through the body of the `while` loop of `main`, entered after
`game_is_over()` returned `FALSE`; `btn` is the value `get_btn_pressed()`
returns in this pass. -/
def main_loop_body (btn : Nat) (s : State) : State :=
  let s :=
    if btn ≤ 8 then
      { s with board := s.board.set btn s.player_turn,
               player_turn := if s.player_turn = 1 then 2 else 1 }
    else s
  if s.cpu_is_playing = TRUE ∧ s.player_turn = 2 then
    let r := game_is_over s.board s.winner
    let s := { s with winner := r.2 }
    if r.1 = FALSE then
      { s with board := cpu_turn s.board, player_turn := 1 }
    else s
  else s

/-- The `while(game_is_over() == FALSE)` loop of `main`, driven by the list
of values `get_btn_pressed()` returns in successive passes; the run stops
when the game is over or when the list is used up. -/
def main_loop : List Nat → State → State
  | [], s => s
  | btn :: btns, s =>
    let r := game_is_over s.board s.winner
    let s := { s with winner := r.2 }
    if r.1 = FALSE then main_loop btns (main_loop_body btn s) else s

/-- The value `btn` is one that `get_btn_pressed()` can return on `board`. -/
def ButtonResult (board : Board) (btn : Nat) : Prop :=
  btn = 0xFF ∨ (btn ≤ 8 ∧ board.get btn = 0)

/-- The states at the head of the `while` loop of `main` that a game can
reach from the initial state with the computer enabled. -/
inductive Reachable : State → Prop
  | init : Reachable (State.init TRUE)
  | step (s : State) (btn : Nat) :
      Reachable s → (game_is_over s.board s.winner).1 = FALSE →
      ButtonResult s.board btn → Reachable (main_loop_body btn s)

/-! ## Lines with two marks and a free cell -/

/-- Line `l` holds two marks of player `p` and its third cell `e` is
empty. -/
def Board.openAt (b : Board) (p : Nat) (l : Nat × Nat × Nat) (e : Nat) : Prop :=
  (e = l.1 ∧ b.get l.1 = 0 ∧ b.get l.2.1 = p ∧ b.get l.2.2 = p) ∨
  (e = l.2.1 ∧ b.get l.1 = p ∧ b.get l.2.1 = 0 ∧ b.get l.2.2 = p) ∨
  (e = l.2.2 ∧ b.get l.1 = p ∧ b.get l.2.1 = p ∧ b.get l.2.2 = 0)

/-- Some line holds two marks of player `p` and an empty cell. -/
def Board.hasOpenLine (b : Board) (p : Nat) : Prop :=
  ∃ l, l ∈ lines ∧ ∃ e, b.openAt p l e

/-- Cell `e` is the empty cell of some line whose other two cells hold
marks of player `p`. -/
def Board.threat (b : Board) (p : Nat) (e : Nat) : Prop :=
  ∃ l, l ∈ lines ∧ b.openAt p l e

/-- The position a cell value occupies after a quarter turn clockwise:
corner cycle 0→2→8→6→0, edge cycle 1→5→7→3→1, centre 4 fixed. -/
def quarterTurn (i : Nat) : Nat :=
  match i with
  | 0 => 2
  | 2 => 8
  | 8 => 6
  | 6 => 0
  | 1 => 5
  | 5 => 7
  | 7 => 3
  | 3 => 1
  | _ => i

/-- Every cell of the board holds 0, 1 or 2. -/
def Board.Valid (b : Board) : Prop := ∀ i, i < 9 → b.get i ≤ 2

/-- The number of cells of the board that hold the value `p`. -/
def Board.count (b : Board) (p : Nat) : Nat := b.toList.count p

/-- The states at the head of the `while` loop of `main` that a game can
reach from the initial state, for either value of the mode flag
`cpu_is_playing`. -/
inductive LoopHead (cpu_is_playing : Nat) : State → Prop
  | init : LoopHead cpu_is_playing (State.init cpu_is_playing)
  | step (s : State) (btn : Nat) :
      LoopHead cpu_is_playing s → (game_is_over s.board s.winner).1 = FALSE →
      ButtonResult s.board btn → LoopHead cpu_is_playing (main_loop_body btn s)

/-! ## Interrupt -/

/-- The macro `LED_DELAY`, in microseconds. -/
def LED_DELAY : Nat := 800

/-- Modelled from the spec: the period of the timer 2 overflow in
microseconds.  The source sets prescaler 32 on the 8-bit counter and says
"every 8.2 ms or so"; the clock frequency is not defined in the source, and
the period is 256 counts of 32 cycles of one microsecond. -/
def TICK_PERIOD : Nat := 256 * 32

/-- The registers and globals the handler of `TIMER2_OVF_vect` writes:
`LED_DDR`, `LED_PORT`, `count`, `LED_state`, `TCNT2`, all of eight bits, and
the log of the handler's pulses.  Every `_delay_us(LED_DELAY)` adds to the
log the values `LED_DDR` and `LED_PORT` hold during that delay. -/
structure Leds where
  ddr : Nat
  port : Nat
  count : Nat
  LED_state : Nat
  tcnt2 : Nat
  pulses : List (Nat × Nat)
deriving DecidableEq, Repr

/-- The statement `x &= ~m` on an eight-bit register `x`. -/
def and_not8 (x m : Nat) : Nat := x &&& (0xFF ^^^ m)

/-- The three statements `LED_PORT |= m; _delay_us(LED_DELAY);
LED_PORT &= ~m;`. -/
def led_pulse (m : Nat) (s : Leds) : Leds :=
  let s := { s with port := s.port ||| m }
  let s := { s with pulses := s.pulses ++ [(s.ddr, s.port)] }
  { s with port := and_not8 s.port m }

/-- One of the three `for` loops over the board cells in the handler: the
loop reads `board[i + off]`, pulses bit `i` for player 2 and bit `i + step`
for player 1, and shifts `LED_DDR` left at the end of every iteration.  The
first loop has `off = 0`, `step = 1`, the second `off = 4`, `step = 2`, the
third `off = 7`, `step = 3`.  `n` iterations are left. -/
def isr_cells_loop (board : Board) (off step : Nat) : Nat → Nat → Leds → Leds
  | 0, _, s => s
  | n + 1, i, s =>
    let s :=
      if board.get (i + off) ≠ 0 then
        if board.get (i + off) = 2 then led_pulse (1 <<< i) s
        else if board.get (i + off) = 1 then led_pulse (1 <<< (i + step)) s
        else s
      else s
    let s := { s with ddr := (s.ddr <<< 1) % 256 }
    isr_cells_loop board off step n (i + 1) s

/-- The section "Main board LEDs" of the handler. -/
def isr_board_leds (board : Board) (s : Leds) : Leds :=
  let s := { s with ddr := and_not8 s.ddr 0x1F }
  let s := { s with ddr := s.ddr ||| 0x03 }
  let s := isr_cells_loop board 0 1 4 0 s
  let s := { s with ddr := and_not8 s.ddr 0x1F }
  let s := { s with ddr := s.ddr ||| 0x05 }
  let s := isr_cells_loop board 4 2 3 0 s
  let s := { s with ddr := and_not8 s.ddr 0x1F }
  let s := { s with ddr := s.ddr ||| 0x09 }
  let s := isr_cells_loop board 7 3 2 0 s
  s

/-- The section "Player LEDs" of the handler, up to the end of its
`if(winner != 0) ... else ...`. -/
def isr_player_leds (winner player_turn : Nat) (s : Leds) : Leds :=
  let s := { s with ddr := and_not8 s.ddr 0x1F }
  let s := { s with ddr := s.ddr ||| 0x11 }
  if winner ≠ 0 then
    if winner = 1 then led_pulse 0x10 s
    else if winner = 2 then led_pulse 1 s
    else led_pulse 0x10 (led_pulse 1 s)
  else
    -- else blink player turn LED
    let s := { s with count := (s.count + 1) % 256 }
    let s := if s.count = 46 then { s with count := 0, LED_state := s.LED_state ^^^ 1 } else s
    if s.LED_state = 1 then
      if player_turn = 1 then led_pulse 0x10 s
      else led_pulse 1 s
    else s

/-- One run of the handler of `TIMER2_OVF_vect`: it reads `board`, `winner`
and `player_turn`. -/
def isr (board : Board) (winner player_turn : Nat) (s : Leds) : Leds :=
  let s := isr_board_leds board s
  let s := isr_player_leds winner player_turn s
  let s := { s with ddr := and_not8 s.ddr 0x1F }
  { s with tcnt2 := 0 }

/-- The registers at the start of a run of the handler, with an empty log. -/
def Leds.start (ddr port count LED_state tcnt2 : Nat) : Leds :=
  { ddr := ddr, port := port, count := count, LED_state := LED_state, tcnt2 := tcnt2,
    pulses := [] }

/-- The handler run once per entry of `ticks`, each entry giving the board
and `player_turn` of that tick, while `winner == 0`; the log is emptied
before every run. -/
def isr_ticks : List (Board × Nat) → Leds → Leds
  | [], s => s
  | (board, player_turn) :: ticks, s =>
    isr_ticks ticks (isr board 0 player_turn { s with pulses := [] })

/-- The two lines configured as outputs while cell `k` is driven, as a mask
of the low five bits of `LED_DDR`; index 9 stands for the two player
indicators. -/
def led_pair (k : Nat) : Nat :=
  match k with
  | 0 => 0x03
  | 1 => 0x06
  | 2 => 0x0C
  | 3 => 0x18
  | 4 => 0x05
  | 5 => 0x0A
  | 6 => 0x14
  | 7 => 0x09
  | 8 => 0x12
  | _ => 0x11

/-- The line driven high for the mark of player `p` in cell `k`, as a mask of
the low five bits of `LED_PORT`: the lower line of the pair for player 2, the
higher line for player 1; index 9 stands for the two player indicators. -/
def led_line (k p : Nat) : Nat :=
  match k with
  | 0 => if p = 2 then 0x01 else 0x02
  | 1 => if p = 2 then 0x02 else 0x04
  | 2 => if p = 2 then 0x04 else 0x08
  | 3 => if p = 2 then 0x08 else 0x10
  | 4 => if p = 2 then 0x01 else 0x04
  | 5 => if p = 2 then 0x02 else 0x08
  | 6 => if p = 2 then 0x04 else 0x10
  | 7 => if p = 2 then 0x01 else 0x08
  | 8 => if p = 2 then 0x02 else 0x10
  | _ => if p = 2 then 0x01 else 0x10

/-- The low five bits of the two registers of a logged pulse. -/
def low5 (x : Nat × Nat) : Nat × Nat := (x.1 &&& 0x1F, x.2 &&& 0x1F)

/-- The pulse expected for cell `k` of the board, as low five bits of
`LED_DDR` and `LED_PORT`: one pulse for a 1 or a 2, none otherwise. -/
def cell_pulse (board : Board) (k : Nat) : List (Nat × Nat) :=
  if board.get k = 2 then [(led_pair k, led_line k 2)]
  else if board.get k = 1 then [(led_pair k, led_line k 1)]
  else []

/-! ## Definitions used to state the behaviour of the handler and of the fork rule -/

/-- Playing a 2 into the empty cell `loc` leaves two distinct lines that each
hold two 2s and one empty cell. -/
def Board.forkAt (b : Board) (loc : Nat) : Prop :=
  loc ≤ 8 ∧ b.get loc = 0 ∧
    ∃ l1, l1 ∈ lines ∧ ∃ l2, l2 ∈ lines ∧ l1 ≠ l2 ∧
      (∃ e, (b.set loc 2).openAt 2 l1 e) ∧ (∃ e, (b.set loc 2).openAt 2 l2 e)

/-- The value of `LED_DDR` after `n` of the statements
`LED_DDR = LED_DDR << 1`. -/
def ddr_shifted : Nat → Nat → Nat
  | 0, d => d
  | n + 1, d => ddr_shifted n ((d <<< 1) % 256)

/-- The pulses one cell loop of the handler logs, from the values of
`LED_DDR` and `LED_PORT` at its start. -/
def cells_trace (board : Board) (off step : Nat) : Nat → Nat → Nat → Nat → List (Nat × Nat)
  | 0, _, _, _ => []
  | n + 1, i, d, p =>
    (if board.get (i + off) = 2 then [(d, p ||| 1 <<< i)]
      else if board.get (i + off) = 1 then [(d, p ||| 1 <<< (i + step))]
      else []) ++ cells_trace board off step n (i + 1) ((d <<< 1) % 256) p

/-- One cell loop of the handler together with the two statements that set
`LED_DDR` before it. -/
def isr_cells_section (board : Board) (off step n m : Nat) (s : Leds) : Leds :=
  isr_cells_loop board off step n 0 { s with ddr := and_not8 s.ddr 0x1F ||| m }

/-- The value of `LED_DDR` at the end of the section "Main board LEDs". -/
def board_leds_ddr (d : Nat) : Nat :=
  ddr_shifted 2 (and_not8 (ddr_shifted 3 (and_not8 (ddr_shifted 4 (and_not8 d 0x1F ||| 0x03))
    0x1F ||| 0x05)) 0x1F ||| 0x09)

/-- The pulses expected for the nine cells, in cell order, as low five bits
of `LED_DDR` and `LED_PORT`. -/
def board_pulses (board : Board) : List (Nat × Nat) :=
  cell_pulse board 0 ++ cell_pulse board 1 ++ cell_pulse board 2 ++ cell_pulse board 3 ++
    cell_pulse board 4 ++ cell_pulse board 5 ++ cell_pulse board 6 ++ cell_pulse board 7 ++
    cell_pulse board 8

/-- The pulses expected in the section "Player LEDs", as low five bits of
`LED_DDR` and `LED_PORT`; `led_state` is `LED_state` after the update of the
blink counter. -/
def player_pulses (winner player_turn led_state : Nat) : List (Nat × Nat) :=
  if winner ≠ 0 then
    if winner = 1 then [(led_pair 9, led_line 9 1)]
    else if winner = 2 then [(led_pair 9, led_line 9 2)]
    else [(led_pair 9, led_line 9 2), (led_pair 9, led_line 9 1)]
  else if led_state = 1 then
    if player_turn = 1 then [(led_pair 9, led_line 9 1)] else [(led_pair 9, led_line 9 2)]
  else []

/-- The twenty combinations of an output pair and a driven line: for each
of the nine cells and the indicator pair, the line of player 2 and the line
of player 1. -/
def led_table : List (Nat × Nat) :=
  (List.range 10).map (fun k => (led_pair k, led_line k 2)) ++
    (List.range 10).map (fun k => (led_pair k, led_line k 1))

/-! ## Facts about the board -/

theorem Board.get_set_self (b : Board) (i v : Nat) (h : i < 9) :
    (b.set i v).get i = v := by
  interval_cases i <;> rfl

theorem Board.get_set_other (b : Board) (i j v : Nat) (h : j ≠ i) :
    (b.set i v).get j = b.get j := by
  unfold Board.set
  split <;> first | rfl | (unfold Board.get; split <;> first | rfl | omega)

theorem rotate_eq (b : Board) :
    rotate b = ⟨b.c6, b.c3, b.c0, b.c7, b.c4, b.c1, b.c8, b.c5, b.c2⟩ := by
  cases b; rfl

theorem copy_board_eq (b : Board) : copy_board b = b := by
  cases b; rfl

theorem hasLine_iff (b : Board) (p : Nat) :
    b.hasLine p ↔
      (b.c0 = p ∧ b.c1 = p ∧ b.c2 = p) ∨ (b.c3 = p ∧ b.c4 = p ∧ b.c5 = p) ∨
      (b.c6 = p ∧ b.c7 = p ∧ b.c8 = p) ∨ (b.c0 = p ∧ b.c3 = p ∧ b.c6 = p) ∨
      (b.c1 = p ∧ b.c4 = p ∧ b.c7 = p) ∨ (b.c2 = p ∧ b.c5 = p ∧ b.c8 = p) ∨
      (b.c0 = p ∧ b.c4 = p ∧ b.c8 = p) ∨ (b.c2 = p ∧ b.c4 = p ∧ b.c6 = p) := by
  simp [Board.hasLine, Board.holdsLine, lines, Board.get]

theorem location_values :
    location 0 0 = 0 ∧ location 0 1 = 1 ∧ location 0 2 = 2 ∧
    location 1 0 = 3 ∧ location 1 1 = 4 ∧ location 1 2 = 5 ∧
    location 2 0 = 6 ∧ location 2 1 = 7 ∧ location 2 2 = 8 :=
  ⟨rfl, rfl, rfl, rfl, rfl, rfl, rfl, rfl, rfl⟩

theorem game_winner_loop_iff (b : Board) (p : Nat) :
    game_winner_loop b p 3 0 = true ↔
      (b.c0 = p ∧ b.c1 = p ∧ b.c2 = p) ∨ (b.c3 = p ∧ b.c4 = p ∧ b.c5 = p) ∨
      (b.c6 = p ∧ b.c7 = p ∧ b.c8 = p) ∨ (b.c0 = p ∧ b.c3 = p ∧ b.c6 = p) ∨
      (b.c1 = p ∧ b.c4 = p ∧ b.c7 = p) ∨ (b.c2 = p ∧ b.c5 = p ∧ b.c8 = p) := by
  obtain ⟨l00, l01, l02, l10, l11, l12, l20, l21, l22⟩ := location_values
  simp only [game_winner_loop, l00, l01, l02, l10, l11, l12, l20, l21, l22, Board.get]
  split_ifs <;> simp_all

theorem game_winner_eq (b : Board) (a : Nat) :
    game_winner b a =
      if game_winner_loop b (if a ≠ 0 then 1 else 2) 3 0 = true then TRUE
      else if b.c4 = (if a ≠ 0 then 1 else 2) ∧
          ((b.c0 = (if a ≠ 0 then 1 else 2) ∧ b.c8 = (if a ≠ 0 then 1 else 2)) ∨
            (b.c2 = (if a ≠ 0 then 1 else 2) ∧ b.c6 = (if a ≠ 0 then 1 else 2))) then TRUE
      else FALSE := rfl

theorem diag_iff (b : Board) (p : Nat) :
    (b.c4 = p ∧ (b.c0 = p ∧ b.c8 = p ∨ b.c2 = p ∧ b.c6 = p)) ↔
      ((b.c0 = p ∧ b.c4 = p ∧ b.c8 = p) ∨ (b.c2 = p ∧ b.c4 = p ∧ b.c6 = p)) := by
  constructor
  · rintro ⟨h4, ⟨h0, h8⟩ | ⟨h2, h6⟩⟩
    · exact Or.inl ⟨h0, h4, h8⟩
    · exact Or.inr ⟨h2, h4, h6⟩
  · rintro (⟨h0, h4, h8⟩ | ⟨h2, h4, h6⟩)
    · exact ⟨h4, Or.inl ⟨h0, h8⟩⟩
    · exact ⟨h4, Or.inr ⟨h2, h6⟩⟩

theorem hasLine_iff_loop_diag (b : Board) (p : Nat) :
    b.hasLine p ↔
      (game_winner_loop b p 3 0 = true ∨
        (b.c4 = p ∧ (b.c0 = p ∧ b.c8 = p ∨ b.c2 = p ∧ b.c6 = p))) := by
  rw [hasLine_iff, game_winner_loop_iff, diag_iff]
  simp only [or_assoc]

theorem game_winner_as_iff (b : Board) (a : Nat) :
    game_winner b a = TRUE ↔ b.hasLine (if a ≠ 0 then 1 else 2) := by
  rw [hasLine_iff_loop_diag, game_winner_eq]
  generalize (if a ≠ 0 then 1 else 2) = p
  split_ifs with hloop hd
  · exact ⟨fun _ => Or.inl hloop, fun _ => rfl⟩
  · exact ⟨fun _ => Or.inr hd, fun _ => rfl⟩
  · constructor
    · intro h
      exact absurd h (by decide)
    · intro h
      exact h.elim (fun h => absurd h hloop) (fun h => absurd h hd)

theorem game_winner_TRUE_iff (b : Board) : game_winner b TRUE = TRUE ↔ b.hasLine 1 := by
  simpa [TRUE] using game_winner_as_iff b 1

theorem game_winner_FALSE_iff (b : Board) : game_winner b FALSE = TRUE ↔ b.hasLine 2 := by
  simpa [FALSE] using game_winner_as_iff b 0

theorem game_winner_bool (b : Board) (a : Nat) :
    game_winner b a = TRUE ∨ game_winner b a = FALSE := by
  rw [game_winner_eq]
  split_ifs <;> first | exact Or.inl rfl | exact Or.inr rfl

theorem has_empty_loop_iff (b : Board) :
    has_empty_loop b 9 0 = true ↔ ∃ i, i < 9 ∧ b.get i = 0 := by
  constructor
  · intro h
    simp only [has_empty_loop] at h
    split_ifs at h with h0 h1 h2 h3 h4 h5 h6 h7 h8
    · exact ⟨0, by omega, h0⟩
    · exact ⟨1, by omega, h1⟩
    · exact ⟨2, by omega, h2⟩
    · exact ⟨3, by omega, h3⟩
    · exact ⟨4, by omega, h4⟩
    · exact ⟨5, by omega, h5⟩
    · exact ⟨6, by omega, h6⟩
    · exact ⟨7, by omega, h7⟩
    · exact ⟨8, by omega, h8⟩
  · rintro ⟨i, hi, h⟩
    simp only [has_empty_loop]
    interval_cases i <;> simp [h]

theorem location_le (r c : Nat) (hr : r < 3) (hc : c < 3) : location r c ≤ 8 := by
  unfold location
  rw [if_pos ⟨hr, hc⟩]
  omega

theorem get_btn_pressed_rows_sound (board : Board) (pin : Nat → Nat) (c : Nat) (hc : c < 3) :
    ∀ n r k loc k1, r + n ≤ 3 →
      get_btn_pressed_rows board pin c n r k = (some loc, k1) →
      loc ≤ 8 ∧ board.get loc = 0 := by
  intro n
  induction n with
  | zero =>
    intro r k loc k1 _ h
    simp [get_btn_pressed_rows] at h
  | succ n ih =>
    intro r k loc k1 hr h
    rw [get_btn_pressed_rows] at h
    split_ifs at h with h1 h2
    · have hloc : location r c = loc := by
        have := congrArg Prod.fst h
        simpa using this
      rw [← hloc]
      exact ⟨location_le r c (by omega) hc, h1.2⟩
    · exact ih (r + 1) (k + 2) loc k1 (by omega) h
    · exact ih (r + 1) (k + 1) loc k1 (by omega) h

theorem get_btn_pressed_cols_sound (board : Board) (pin : Nat → Nat) :
    ∀ n c k, c + n ≤ 3 →
      get_btn_pressed_cols board pin n c k = 0xFF ∨
        (get_btn_pressed_cols board pin n c k ≤ 8 ∧
          board.get (get_btn_pressed_cols board pin n c k) = 0) := by
  intro n
  induction n with
  | zero =>
    intro c k _
    exact Or.inl rfl
  | succ n ih =>
    intro c k hc
    rw [get_btn_pressed_cols]
    rcases hrows : get_btn_pressed_rows board pin c 3 0 k with ⟨_ | loc, k1⟩
    · exact ih (c + 1) k1 (by omega)
    · exact Or.inr (get_btn_pressed_rows_sound board pin c (by omega) 3 0 k loc k1 (by omega) hrows)

/-! ## Facts about the decision engine -/

theorem threat_iff (b : Board) (p e : Nat) :
    b.threat p e ↔
      (e = 0 ∧ b.c0 = 0 ∧ b.c1 = p ∧ b.c2 = p) ∨ (e = 1 ∧ b.c0 = p ∧ b.c1 = 0 ∧ b.c2 = p) ∨
      (e = 2 ∧ b.c0 = p ∧ b.c1 = p ∧ b.c2 = 0) ∨
      (e = 3 ∧ b.c3 = 0 ∧ b.c4 = p ∧ b.c5 = p) ∨ (e = 4 ∧ b.c3 = p ∧ b.c4 = 0 ∧ b.c5 = p) ∨
      (e = 5 ∧ b.c3 = p ∧ b.c4 = p ∧ b.c5 = 0) ∨
      (e = 6 ∧ b.c6 = 0 ∧ b.c7 = p ∧ b.c8 = p) ∨ (e = 7 ∧ b.c6 = p ∧ b.c7 = 0 ∧ b.c8 = p) ∨
      (e = 8 ∧ b.c6 = p ∧ b.c7 = p ∧ b.c8 = 0) ∨
      (e = 0 ∧ b.c0 = 0 ∧ b.c3 = p ∧ b.c6 = p) ∨ (e = 3 ∧ b.c0 = p ∧ b.c3 = 0 ∧ b.c6 = p) ∨
      (e = 6 ∧ b.c0 = p ∧ b.c3 = p ∧ b.c6 = 0) ∨
      (e = 1 ∧ b.c1 = 0 ∧ b.c4 = p ∧ b.c7 = p) ∨ (e = 4 ∧ b.c1 = p ∧ b.c4 = 0 ∧ b.c7 = p) ∨
      (e = 7 ∧ b.c1 = p ∧ b.c4 = p ∧ b.c7 = 0) ∨
      (e = 2 ∧ b.c2 = 0 ∧ b.c5 = p ∧ b.c8 = p) ∨ (e = 5 ∧ b.c2 = p ∧ b.c5 = 0 ∧ b.c8 = p) ∨
      (e = 8 ∧ b.c2 = p ∧ b.c5 = p ∧ b.c8 = 0) ∨
      (e = 0 ∧ b.c0 = 0 ∧ b.c4 = p ∧ b.c8 = p) ∨ (e = 4 ∧ b.c0 = p ∧ b.c4 = 0 ∧ b.c8 = p) ∨
      (e = 8 ∧ b.c0 = p ∧ b.c4 = p ∧ b.c8 = 0) ∨
      (e = 2 ∧ b.c2 = 0 ∧ b.c4 = p ∧ b.c6 = p) ∨ (e = 4 ∧ b.c2 = p ∧ b.c4 = 0 ∧ b.c6 = p) ∨
      (e = 6 ∧ b.c2 = p ∧ b.c4 = p ∧ b.c6 = 0) := by
  simp only [Board.threat, Board.openAt, lines, List.mem_cons, List.mem_singleton,
    List.not_mem_nil, or_false, or_and_right, exists_or, exists_eq_left, Board.get, or_assoc]

theorem rotate_mk (a0 a1 a2 a3 a4 a5 a6 a7 a8 : Nat) :
    rotate ⟨a0, a1, a2, a3, a4, a5, a6, a7, a8⟩ = ⟨a6, a3, a0, a7, a4, a1, a8, a5, a2⟩ := rfl

theorem get_mk (a0 a1 a2 a3 a4 a5 a6 a7 a8 : Nat) :
    (Board.mk a0 a1 a2 a3 a4 a5 a6 a7 a8).get 0 = a0 ∧
    (Board.mk a0 a1 a2 a3 a4 a5 a6 a7 a8).get 1 = a1 ∧
    (Board.mk a0 a1 a2 a3 a4 a5 a6 a7 a8).get 2 = a2 ∧
    (Board.mk a0 a1 a2 a3 a4 a5 a6 a7 a8).get 3 = a3 ∧
    (Board.mk a0 a1 a2 a3 a4 a5 a6 a7 a8).get 4 = a4 ∧
    (Board.mk a0 a1 a2 a3 a4 a5 a6 a7 a8).get 5 = a5 ∧
    (Board.mk a0 a1 a2 a3 a4 a5 a6 a7 a8).get 6 = a6 ∧
    (Board.mk a0 a1 a2 a3 a4 a5 a6 a7 a8).get 7 = a7 ∧
    (Board.mk a0 a1 a2 a3 a4 a5 a6 a7 a8).get 8 = a8 :=
  ⟨rfl, rfl, rfl, rfl, rfl, rfl, rfl, rfl, rfl⟩

theorem wl_patterns_sound (b : Nat) (board : Board) (loc : Nat) :
    (wins_or_losses_patterns b board 0 = some loc → board.threat b loc) ∧
    (wins_or_losses_patterns b (rotate board) 1 = some loc → board.threat b loc) ∧
    (wins_or_losses_patterns b (rotate (rotate board)) 2 = some loc → board.threat b loc) ∧
    (wins_or_losses_patterns b (rotate (rotate (rotate board))) 3 = some loc →
      board.threat b loc) := by
  obtain ⟨a0, a1, a2, a3, a4, a5, a6, a7, a8⟩ := board
  simp only [rotate_mk]
  unfold wins_or_losses_patterns
  simp only [get_mk, ↓reduceIte, OfNat.ofNat_ne_zero, one_ne_zero, OfNat.ofNat_ne_one]
  refine ⟨?_, ?_, ?_, ?_⟩ <;> intro h <;> split_ifs at h <;> cases h <;>
    rw [threat_iff] <;> simp_all

theorem wl_patterns_none (b i a0 a1 a2 a3 a4 a5 a6 a7 a8 : Nat)
    (h : wins_or_losses_patterns b ⟨a0, a1, a2, a3, a4, a5, a6, a7, a8⟩ i = none) :
    ¬ (a0 = 0 ∧ a1 = b ∧ a2 = b) ∧ ¬ (a0 = b ∧ a1 = 0 ∧ a2 = b) ∧ ¬ (a0 = b ∧ a1 = b ∧ a2 = 0) ∧
    ¬ (a1 = b ∧ a4 = b ∧ a7 = 0) ∧ ¬ (a1 = b ∧ a4 = 0 ∧ a7 = b) ∧
    ¬ (a0 = b ∧ a4 = b ∧ a8 = 0) ∧ ¬ (a0 = b ∧ a4 = 0 ∧ a8 = b) := by
  unfold wins_or_losses_patterns at h
  simp only [get_mk] at h
  split_ifs at h
  exact ⟨by assumption, by assumption, by assumption, by assumption, by assumption,
    by assumption, by assumption⟩

theorem wl_patterns_complete (b : Nat) (board : Board) (e : Nat) (h : board.threat b e)
    (h0 : wins_or_losses_patterns b board 0 = none)
    (h1 : wins_or_losses_patterns b (rotate board) 1 = none)
    (h2 : wins_or_losses_patterns b (rotate (rotate board)) 2 = none)
    (h3 : wins_or_losses_patterns b (rotate (rotate (rotate board))) 3 = none) : False := by
  obtain ⟨a0, a1, a2, a3, a4, a5, a6, a7, a8⟩ := board
  simp only [rotate_mk] at h1 h2 h3
  have n0 := wl_patterns_none _ _ _ _ _ _ _ _ _ _ _ h0
  have n1 := wl_patterns_none _ _ _ _ _ _ _ _ _ _ _ h1
  have n2 := wl_patterns_none _ _ _ _ _ _ _ _ _ _ _ h2
  have n3 := wl_patterns_none _ _ _ _ _ _ _ _ _ _ _ h3
  clear h0 h1 h2 h3
  rw [threat_iff] at h
  simp only at h
  rcases h with h | h | h | h | h | h | h | h | h | h | h | h | h | h | h | h | h | h | h | h |
    h | h | h | h <;> obtain ⟨-, x, y, z⟩ := h <;> subst x y z <;> simp at n0 n1 n2 n3

theorem wl_loop_some (b : Nat) (t : Board) (loc : Nat)
    (h : check_wins_or_losses_loop b 4 0 t = some loc) :
    wins_or_losses_patterns b t 0 = some loc ∨
    wins_or_losses_patterns b (rotate t) 1 = some loc ∨
    wins_or_losses_patterns b (rotate (rotate t)) 2 = some loc ∨
    wins_or_losses_patterns b (rotate (rotate (rotate t))) 3 = some loc := by
  simp only [check_wins_or_losses_loop] at h
  rcases h0 : wins_or_losses_patterns b t 0 with _ | x0
  · rcases h1 : wins_or_losses_patterns b (rotate t) 1 with _ | x1
    · rcases h2 : wins_or_losses_patterns b (rotate (rotate t)) 2 with _ | x2
      · rcases h3 : wins_or_losses_patterns b (rotate (rotate (rotate t))) 3 with _ | x3
        · simp [h0, h1, h2, h3] at h
        · simp [h0, h1, h2, h3] at h
          simp [h]
      · simp [h0, h1, h2] at h
        simp [h]
    · simp [h0, h1] at h
      simp [h]
  · simp [h0] at h
    simp [h]

theorem wl_loop_none (b : Nat) (t : Board)
    (h : check_wins_or_losses_loop b 4 0 t = none) :
    wins_or_losses_patterns b t 0 = none ∧
    wins_or_losses_patterns b (rotate t) 1 = none ∧
    wins_or_losses_patterns b (rotate (rotate t)) 2 = none ∧
    wins_or_losses_patterns b (rotate (rotate (rotate t))) 3 = none := by
  simp only [check_wins_or_losses_loop] at h
  rcases h0 : wins_or_losses_patterns b t 0 with _ | x0
  · rcases h1 : wins_or_losses_patterns b (rotate t) 1 with _ | x1
    · rcases h2 : wins_or_losses_patterns b (rotate (rotate t)) 2 with _ | x2
      · rcases h3 : wins_or_losses_patterns b (rotate (rotate (rotate t))) 3 with _ | x3
        · exact ⟨rfl, rfl, rfl, rfl⟩
        · simp [h0, h1, h2, h3] at h
      · simp [h0, h1, h2] at h
    · simp [h0, h1] at h
  · simp [h0] at h

/-- The scan of `check_wins_or_losses` for player `b` finds the empty cell
of a line with two marks of `b`, and finds one whenever there is one. -/
theorem wl_loop_spec (b : Nat) (board : Board) :
    (∀ loc, check_wins_or_losses_loop b 4 0 (copy_board board) = some loc →
      board.threat b loc) ∧
    (check_wins_or_losses_loop b 4 0 (copy_board board) = none → ∀ e, ¬ board.threat b e) := by
  rw [copy_board_eq]
  constructor
  · intro loc h
    obtain ⟨s0, s1, s2, s3⟩ := wl_patterns_sound b board loc
    rcases wl_loop_some b board loc h with h | h | h | h
    · exact s0 h
    · exact s1 h
    · exact s2 h
    · exact s3 h
  · intro h e he
    obtain ⟨h0, h1, h2, h3⟩ := wl_loop_none b board h
    exact wl_patterns_complete b board e he h0 h1 h2 h3

theorem threat_empty (board : Board) (p e : Nat) (h : board.threat p e) :
    e ≤ 8 ∧ board.get e = 0 := by
  rw [threat_iff] at h
  rcases h with h | h | h | h | h | h | h | h | h | h | h | h | h | h | h | h | h | h | h | h |
    h | h | h | h <;> obtain ⟨rfl, x, y, z⟩ := h <;>
    first | exact ⟨by omega, x⟩ | exact ⟨by omega, y⟩ | exact ⟨by omega, z⟩

/-- What `check_wins_or_losses(TRUE)` returns: a winning cell if there is
one, else a blocking cell if there is one, else 255. -/
theorem check_wins_or_losses_TRUE (board : Board) :
    board.threat 2 (check_wins_or_losses board TRUE) ∨
    ((∀ e, ¬ board.threat 2 e) ∧ board.threat 1 (check_wins_or_losses board TRUE)) ∨
    ((∀ e, ¬ board.threat 2 e) ∧ (∀ e, ¬ board.threat 1 e) ∧
      check_wins_or_losses board TRUE = 0xFF) := by
  obtain ⟨s2, c2⟩ := wl_loop_spec 2 board
  obtain ⟨s1, c1⟩ := wl_loop_spec 1 board
  have hdef : check_wins_or_losses board TRUE =
      match check_wins_or_losses_loop 2 4 0 (copy_board board) with
      | some loc => loc
      | none =>
        match check_wins_or_losses_loop 1 4 0 (copy_board board) with
        | some loc => loc
        | none => 0xFF := rfl
  rw [hdef]
  rcases h2 : check_wins_or_losses_loop 2 4 0 (copy_board board) with _ | x2
  · rcases h1 : check_wins_or_losses_loop 1 4 0 (copy_board board) with _ | x1
    · exact Or.inr (Or.inr ⟨c2 h2, c1 h1, rfl⟩)
    · exact Or.inr (Or.inl ⟨c2 h2, s1 x1 h1⟩)
  · exact Or.inl (s2 x2 h2)

theorem check_sides_spec (board : Board) :
    (check_sides board = 0xFF ∧ board.get 1 ≠ 0 ∧ board.get 3 ≠ 0 ∧ board.get 5 ≠ 0 ∧
        board.get 7 ≠ 0) ∨
      (check_sides board ≤ 8 ∧ board.get (check_sides board) = 0) := by
  unfold check_sides
  split_ifs with h1 h5 h7 h3
  · exact Or.inr ⟨by omega, h1⟩
  · exact Or.inr ⟨by omega, h5⟩
  · exact Or.inr ⟨by omega, h7⟩
  · exact Or.inr ⟨by omega, h3⟩
  · exact Or.inl ⟨rfl, h1, h3, h5, h7⟩

theorem check_corners_TRUE_spec (board : Board) :
    (check_corners board TRUE = 0xFF ∧ board.get 0 ≠ 0 ∧ board.get 2 ≠ 0 ∧ board.get 6 ≠ 0 ∧
        board.get 8 ≠ 0) ∨
      (check_corners board TRUE ≤ 8 ∧ board.get (check_corners board TRUE) = 0) := by
  have hdef : check_corners board TRUE =
      if board.get 0 = 0 ∧ board.get 8 = 1 then 0
      else if board.get 2 = 0 ∧ board.get 6 = 1 then 2
      else if board.get 8 = 0 ∧ board.get 0 = 1 then 8
      else if board.get 6 = 0 ∧ board.get 2 = 1 then 6
      else if board.get 0 = 0 then 0
      else if board.get 2 = 0 then 2
      else if board.get 8 = 0 then 8
      else if board.get 6 = 0 then 6
      else 0xFF := rfl
  rw [hdef]
  split_ifs with h1 h2 h3 h4 h5 h6 h7 h8
  · exact Or.inr ⟨by omega, h1.1⟩
  · exact Or.inr ⟨by omega, h2.1⟩
  · exact Or.inr ⟨by omega, h3.1⟩
  · exact Or.inr ⟨by omega, h4.1⟩
  · exact Or.inr ⟨by omega, h5⟩
  · exact Or.inr ⟨by omega, h6⟩
  · exact Or.inr ⟨by omega, h7⟩
  · exact Or.inr ⟨by omega, h8⟩
  · exact Or.inl ⟨rfl, h5, h6, h8, h7⟩

theorem fork_patterns_sound (board : Board) (ic b loc : Nat) :
    (fork_patterns board ic b board 0 = some loc → loc ≤ 8 ∧ board.get loc = 0) ∧
    (fork_patterns board ic b (rotate board) 1 = some loc → loc ≤ 8 ∧ board.get loc = 0) ∧
    (fork_patterns board ic b (rotate (rotate board)) 2 = some loc →
      loc ≤ 8 ∧ board.get loc = 0) ∧
    (fork_patterns board ic b (rotate (rotate (rotate board))) 3 = some loc →
      loc ≤ 8 ∧ board.get loc = 0) := by
  have hs : check_sides board ≤ 8 → board.get (check_sides board) = 0 := by
    intro h
    rcases check_sides_spec board with h1 | h1
    · rw [h1.1] at h
      omega
    · exact h1.2
  obtain ⟨a0, a1, a2, a3, a4, a5, a6, a7, a8⟩ := board
  simp only [rotate_mk]
  unfold fork_patterns
  generalize check_sides ⟨a0, a1, a2, a3, a4, a5, a6, a7, a8⟩ = s at hs ⊢
  simp only [get_mk, ↓reduceIte, OfNat.ofNat_ne_zero, one_ne_zero, OfNat.ofNat_ne_one]
  refine ⟨?_, ?_, ?_, ?_⟩ <;> intro h <;> split_ifs at h <;> cases h <;>
    first
    | exact ⟨by assumption, hs (by assumption)⟩
    | (refine ⟨by omega, ?_⟩; simp_all [get_mk])

theorem fork_loop_some (board : Board) (ic b : Nat) (t : Board) (loc : Nat)
    (h : check_fork_states_loop board ic b 4 0 t = some loc) :
    fork_patterns board ic b t 0 = some loc ∨
    fork_patterns board ic b (rotate t) 1 = some loc ∨
    fork_patterns board ic b (rotate (rotate t)) 2 = some loc ∨
    fork_patterns board ic b (rotate (rotate (rotate t))) 3 = some loc := by
  simp only [check_fork_states_loop] at h
  rcases h0 : fork_patterns board ic b t 0 with _ | x0
  · rcases h1 : fork_patterns board ic b (rotate t) 1 with _ | x1
    · rcases h2 : fork_patterns board ic b (rotate (rotate t)) 2 with _ | x2
      · rcases h3 : fork_patterns board ic b (rotate (rotate (rotate t))) 3 with _ | x3
        · simp [h0, h1, h2, h3] at h
        · simp [h0, h1, h2, h3] at h
          simp [h]
      · simp [h0, h1, h2] at h
        simp [h]
    · simp [h0, h1] at h
      simp [h]
  · simp [h0] at h
    simp [h]

theorem fork_loop_sound (board : Board) (ic b loc : Nat)
    (h : check_fork_states_loop board ic b 4 0 (copy_board board) = some loc) :
    loc ≤ 8 ∧ board.get loc = 0 := by
  rw [copy_board_eq] at h
  obtain ⟨s0, s1, s2, s3⟩ := fork_patterns_sound board ic b loc
  rcases fork_loop_some board ic b board loc h with h | h | h | h
  · exact s0 h
  · exact s1 h
  · exact s2 h
  · exact s3 h

theorem check_fork_states_TRUE (board : Board) :
    check_fork_states board TRUE = 0xFF ∨
      (check_fork_states board TRUE ≤ 8 ∧ board.get (check_fork_states board TRUE) = 0) := by
  have hdef : check_fork_states board TRUE =
      match check_fork_states_loop board TRUE 2 4 0 (copy_board board) with
      | some loc => loc
      | none =>
        match check_fork_states_loop board FALSE 1 4 0 (copy_board board) with
        | some loc => loc
        | none => 0xFF := rfl
  rw [hdef]
  rcases h2 : check_fork_states_loop board TRUE 2 4 0 (copy_board board) with _ | x2
  · rcases h1 : check_fork_states_loop board FALSE 1 4 0 (copy_board board) with _ | x1
    · exact Or.inl rfl
    · exact Or.inr (fork_loop_sound board FALSE 1 x1 h1)
  · exact Or.inr (fork_loop_sound board TRUE 2 x2 h2)

theorem cpu_turn_rest (board : Board) (hw : ¬ check_wins_or_losses board TRUE ≤ 8) :
    cpu_turn board =
      if check_fork_states board TRUE ≤ 8 then board.set (check_fork_states board TRUE) 2
      else if board.get 4 = 0 then board.set 4 2
      else if check_corners board TRUE ≤ 8 then board.set (check_corners board TRUE) 2
      else if check_sides board ≤ 8 then board.set (check_sides board) 2
      else board := by
  unfold cpu_turn
  simp only [hw, if_false]

/-- The moves of `cpu_turn` after `check_wins_or_losses` has found nothing:
a 2 goes into some empty cell, and the board is left alone only when no cell
is empty. -/
theorem cpu_turn_rest_cases (board : Board) (hw : ¬ check_wins_or_losses board TRUE ≤ 8) :
    (∃ j, j ≤ 8 ∧ board.get j = 0 ∧ cpu_turn board = board.set j 2) ∨
    ((∀ i, i < 9 → board.get i ≠ 0) ∧ cpu_turn board = board) := by
  rw [cpu_turn_rest board hw]
  have hff : ¬ ((0xFF : Nat) ≤ 8) := by omega
  rcases check_fork_states_TRUE board with hf | hf
  · rw [hf, if_neg hff]
    by_cases h4 : board.get 4 = 0
    · exact Or.inl ⟨4, by omega, h4, by rw [if_pos h4]⟩
    · rw [if_neg h4]
      rcases check_corners_TRUE_spec board with hc | hc
      · rw [hc.1, if_neg hff]
        rcases check_sides_spec board with hs | hs
        · rw [hs.1, if_neg hff]
          refine Or.inr ⟨?_, rfl⟩
          intro i hi
          interval_cases i
          · exact hc.2.1
          · exact hs.2.1
          · exact hc.2.2.1
          · exact hs.2.2.1
          · exact h4
          · exact hs.2.2.2.1
          · exact hc.2.2.2.1
          · exact hs.2.2.2.2
          · exact hc.2.2.2.2
        · exact Or.inl ⟨_, hs.1, hs.2, by rw [if_pos hs.1]⟩
      · exact Or.inl ⟨_, hc.1, hc.2, by rw [if_pos hc.1]⟩
  · exact Or.inl ⟨_, hf.1, hf.2, by rw [if_pos hf.1]⟩

theorem cpu_turn_first (board : Board) (hw : check_wins_or_losses board TRUE ≤ 8) :
    cpu_turn board = board.set (check_wins_or_losses board TRUE) 2 := by
  unfold cpu_turn
  simp only [hw, if_true]

/-- The effect of `cpu_turn` on the cells: a 2 goes into one empty cell and
nothing else changes, or no cell is empty and nothing changes. -/
theorem cpu_turn_effect (board : Board) :
    (∃ j, j ≤ 8 ∧ board.get j = 0 ∧ cpu_turn board = board.set j 2) ∨
    ((∀ i, i < 9 → board.get i ≠ 0) ∧ cpu_turn board = board) := by
  by_cases hw : check_wins_or_losses board TRUE ≤ 8
  · refine Or.inl ⟨_, hw, ?_, cpu_turn_first board hw⟩
    rcases check_wins_or_losses_TRUE board with h | h | h
    · exact (threat_empty board 2 _ h).2
    · exact (threat_empty board 1 _ h.2).2
    · rw [h.2.2] at hw
      omega
  · exact cpu_turn_rest_cases board hw

theorem set_get_of (board : Board) (e p x : Nat) (he : e < 9)
    (hx : x = e ∨ board.get x = p) : (board.set e p).get x = p := by
  by_cases hxe : x = e
  · rw [hxe]
    exact Board.get_set_self board e p he
  · rw [Board.get_set_other board e x p hxe]
    rcases hx with hx | hx
    · exact absurd hx hxe
    · exact hx

theorem openAt_mem (board : Board) (p : Nat) (l : Nat × Nat × Nat) (e : Nat)
    (h : board.openAt p l e) : e = l.1 ∨ e = l.2.1 ∨ e = l.2.2 := by
  rcases h with h | h | h
  · exact Or.inl h.1
  · exact Or.inr (Or.inl h.1)
  · exact Or.inr (Or.inr h.1)

theorem holdsLine_after (board : Board) (p : Nat) (l : Nat × Nat × Nat) (e : Nat)
    (he : e < 9) (h : board.openAt p l e) : (board.set e p).holdsLine p l := by
  rcases h with ⟨h, _, y, z⟩ | ⟨h, x, _, z⟩ | ⟨h, x, y, _⟩
  · exact ⟨set_get_of board e p _ he (Or.inl h.symm), set_get_of board e p _ he (Or.inr y),
      set_get_of board e p _ he (Or.inr z)⟩
  · exact ⟨set_get_of board e p _ he (Or.inr x), set_get_of board e p _ he (Or.inl h.symm),
      set_get_of board e p _ he (Or.inr z)⟩
  · exact ⟨set_get_of board e p _ he (Or.inr x), set_get_of board e p _ he (Or.inr y),
      set_get_of board e p _ he (Or.inl h.symm)⟩

/-! ## Facts about the main loop, the fork rule and the handler -/

theorem count_set (b : Board) (k v p : Nat) (hk : k < 9) (h0 : b.get k = 0) (hp : p ≠ 0) :
    (b.set k v).count p = b.count p + (if v = p then 1 else 0) := by
  obtain ⟨a0, a1, a2, a3, a4, a5, a6, a7, a8⟩ := b
  have hp0 : ¬ (0 = p) := fun h => hp h.symm
  interval_cases k <;> simp only [Board.get] at h0 <;> subst h0 <;>
    simp only [Board.set, Board.count, Board.toList, List.count_cons, List.count_nil,
      beq_iff_eq, hp0, if_false] <;> omega

theorem game_is_over_FALSE (board : Board) (w : Nat)
    (h : (game_is_over board w).1 = FALSE) : ∃ i, i < 9 ∧ board.get i = 0 := by
  unfold game_is_over at h
  split_ifs at h with h1 h2 h3
  · exact absurd h (by decide)
  · exact absurd h (by decide)
  · exact (has_empty_loop_iff board).1 h3
  · exact absurd h (by decide)

/-- The relation between `player_turn` and the marks on the board. -/
theorem turn_inv_step (s : State) (btn : Nat)
    (hinv : (s.player_turn = 1 ∧ s.board.count 1 = s.board.count 2) ∨
      (s.player_turn = 2 ∧ s.board.count 1 = s.board.count 2 + 1))
    (hb : ButtonResult s.board btn) :
    ((main_loop_body btn s).player_turn = 1 ∧
        (main_loop_body btn s).board.count 1 = (main_loop_body btn s).board.count 2) ∨
      ((main_loop_body btn s).player_turn = 2 ∧
        (main_loop_body btn s).board.count 1 = (main_loop_body btn s).board.count 2 + 1) := by
  obtain ⟨board, turn, winner, cpu⟩ := s
  simp only at hinv hb
  -- the state after the button has been handled
  have hpress : ∃ b1 t1, (if btn ≤ 8 then
        ({ board := board.set btn turn, player_turn := if turn = 1 then 2 else 1,
           winner := winner, cpu_is_playing := cpu } : State)
      else ⟨board, turn, winner, cpu⟩) = ⟨b1, t1, winner, cpu⟩ ∧
      ((t1 = 1 ∧ b1.count 1 = b1.count 2) ∨ (t1 = 2 ∧ b1.count 1 = b1.count 2 + 1)) := by
    rcases hb with hb | ⟨hle, hz⟩
    · rw [if_neg (by omega)]
      exact ⟨board, turn, rfl, hinv⟩
    · rw [if_pos hle]
      refine ⟨_, _, rfl, ?_⟩
      have c1 := count_set board btn turn 1 (by omega) hz (by decide)
      have c2 := count_set board btn turn 2 (by omega) hz (by decide)
      rcases hinv with ⟨ht, hc⟩ | ⟨ht, hc⟩
      · subst ht
        simp only [if_true] at c1 c2 ⊢
        simp only [show ¬ ((1 : Nat) = 2) by decide, if_false] at c2
        exact Or.inr ⟨trivial, by omega⟩
      · subst ht
        simp only [show ¬ ((2 : Nat) = 1) by decide, if_false, if_true] at c1 c2 ⊢
        exact Or.inl ⟨trivial, by omega⟩
  obtain ⟨b1, t1, he, hinv1⟩ := hpress
  unfold main_loop_body
  simp only [he]
  by_cases hcpu : cpu = TRUE ∧ t1 = 2
  · rw [if_pos hcpu]
    by_cases hover : (game_is_over b1 winner).1 = FALSE
    · rw [if_pos hover]
      simp only
      obtain ⟨i, hi, h0⟩ := game_is_over_FALSE b1 winner hover
      rcases cpu_turn_effect b1 with ⟨j, hj, hj0, hset⟩ | ⟨hfull, _⟩
      · rw [hset]
        have c1 := count_set b1 j 2 1 (by omega) hj0 (by decide)
        have c2 := count_set b1 j 2 2 (by omega) hj0 (by decide)
        simp only [show ¬ ((2 : Nat) = 1) by decide, if_false, if_true] at c1 c2
        rcases hinv1 with ⟨ht, _⟩ | ⟨_, hc⟩
        · rw [ht] at hcpu
          exact absurd hcpu.2 (by decide)
        · exact Or.inl ⟨trivial, by omega⟩
      · exact absurd h0 (hfull i hi)
    · rw [if_neg hover]
      exact hinv1
  · rw [if_neg hcpu]
    exact hinv1

theorem turn_inv_loop_head (cpu : Nat) (s : State) (h : LoopHead cpu s) :
    (s.player_turn = 1 ∧ s.board.count 1 = s.board.count 2) ∨
      (s.player_turn = 2 ∧ s.board.count 1 = s.board.count 2 + 1) := by
  induction h with
  | init => exact Or.inl ⟨rfl, rfl⟩
  | step s btn _ _ hb ih => exact turn_inv_step s btn ih hb

theorem forkAt_intro (b : Board) (loc : Nat) (l1 l2 : Nat × Nat × Nat) (e1 e2 : Nat)
    (hle : loc ≤ 8) (h0 : b.get loc = 0) (h1 : l1 ∈ lines) (h2 : l2 ∈ lines) (hne : l1 ≠ l2)
    (o1 : (b.set loc 2).openAt 2 l1 e1) (o2 : (b.set loc 2).openAt 2 l2 e2) :
    b.forkAt loc :=
  ⟨hle, h0, l1, h1, l2, h2, hne, ⟨e1, o1⟩, ⟨e2, o2⟩⟩

theorem fork_patterns_computer (board : Board) (loc : Nat) :
    (fork_patterns board TRUE 2 board 0 = some loc → board.forkAt loc) ∧
    (fork_patterns board TRUE 2 (rotate board) 1 = some loc → board.forkAt loc) ∧
    (fork_patterns board TRUE 2 (rotate (rotate board)) 2 = some loc → board.forkAt loc) ∧
    (fork_patterns board TRUE 2 (rotate (rotate (rotate board))) 3 = some loc →
      board.forkAt loc) := by
  obtain ⟨a0, a1, a2, a3, a4, a5, a6, a7, a8⟩ := board
  simp only [rotate_mk]
  unfold fork_patterns
  simp only [get_mk, ↓reduceIte, OfNat.ofNat_ne_zero, one_ne_zero, OfNat.ofNat_ne_one, TRUE,
    ne_eq, not_false_eq_true, show ¬ ((3 : Nat) = 2) by decide]
  refine ⟨?_, ?_, ?_, ?_⟩
  · intro h
    split_ifs at h with hc hc
    · cases h
      obtain ⟨rfl, rfl, rfl, rfl, rfl⟩ := hc
      exact forkAt_intro _ 6 (6, 7, 8) (2, 4, 6) 7 2 (by decide) rfl (by decide) (by decide)
        (by decide) (Or.inr (Or.inl ⟨rfl, rfl, rfl, rfl⟩)) (Or.inl ⟨rfl, rfl, rfl, rfl⟩)
    · cases h
      obtain ⟨rfl, rfl, rfl, rfl, rfl⟩ := hc
      exact forkAt_intro _ 6 (0, 3, 6) (6, 7, 8) 3 7 (by decide) rfl (by decide) (by decide)
        (by decide) (Or.inr (Or.inl ⟨rfl, rfl, rfl, rfl⟩)) (Or.inr (Or.inl ⟨rfl, rfl, rfl, rfl⟩))
  · intro h
    split_ifs at h with hc hc
    · cases h
      obtain ⟨rfl, rfl, rfl, rfl, rfl⟩ := hc
      exact forkAt_intro _ 8 (2, 5, 8) (0, 4, 8) 5 0 (by decide) rfl (by decide) (by decide)
        (by decide) (Or.inr (Or.inl ⟨rfl, rfl, rfl, rfl⟩)) (Or.inl ⟨rfl, rfl, rfl, rfl⟩)
    · cases h
      obtain ⟨rfl, rfl, rfl, rfl, rfl⟩ := hc
      exact forkAt_intro _ 8 (6, 7, 8) (2, 5, 8) 7 5 (by decide) rfl (by decide) (by decide)
        (by decide) (Or.inr (Or.inl ⟨rfl, rfl, rfl, rfl⟩)) (Or.inr (Or.inl ⟨rfl, rfl, rfl, rfl⟩))
  · intro h
    split_ifs at h with hc hc
    · cases h
      obtain ⟨rfl, rfl, rfl, rfl, rfl⟩ := hc
      exact forkAt_intro _ 2 (0, 1, 2) (2, 4, 6) 1 6 (by decide) rfl (by decide) (by decide)
        (by decide) (Or.inr (Or.inl ⟨rfl, rfl, rfl, rfl⟩)) (Or.inr (Or.inr ⟨rfl, rfl, rfl, rfl⟩))
    · cases h
      obtain ⟨rfl, rfl, rfl, rfl, rfl⟩ := hc
      exact forkAt_intro _ 2 (2, 5, 8) (0, 1, 2) 5 1 (by decide) rfl (by decide) (by decide)
        (by decide) (Or.inr (Or.inl ⟨rfl, rfl, rfl, rfl⟩)) (Or.inr (Or.inl ⟨rfl, rfl, rfl, rfl⟩))
  · intro h
    split_ifs at h with hc hc
    · cases h
      obtain ⟨rfl, rfl, rfl, rfl, rfl⟩ := hc
      exact forkAt_intro _ 0 (0, 3, 6) (0, 4, 8) 3 8 (by decide) rfl (by decide) (by decide)
        (by decide) (Or.inr (Or.inl ⟨rfl, rfl, rfl, rfl⟩)) (Or.inr (Or.inr ⟨rfl, rfl, rfl, rfl⟩))
    · cases h
      obtain ⟨rfl, rfl, rfl, rfl, rfl⟩ := hc
      exact forkAt_intro _ 0 (0, 1, 2) (0, 3, 6) 1 3 (by decide) rfl (by decide) (by decide)
        (by decide) (Or.inr (Or.inl ⟨rfl, rfl, rfl, rfl⟩)) (Or.inr (Or.inl ⟨rfl, rfl, rfl, rfl⟩))

theorem mem_marks (c : Nat) (h : c ≤ 2) : c ∈ [0, 1, 2] := by
  interval_cases c <;> decide

theorem fallback_rotation0 :
    ∀ c1, c1 ∈ [0, 1, 2] → ∀ c2, c2 ∈ [0, 1, 2] → ∀ c4, c4 ∈ [0, 1, 2] → ∀ c5, c5 ∈ [0, 1, 2] →
      game_winner ⟨1, c1, c2, 0, c4, c5, 0, 0, 1⟩ TRUE ≠ TRUE →
      check_wins_or_losses ⟨1, c1, c2, 0, c4, c5, 0, 0, 1⟩ TRUE = 0xFF →
      (⟨1, c1, c2, 0, c4, c5, 0, 0, 1⟩ : Board) = ⟨1, 0, 0, 0, 2, 0, 0, 0, 1⟩ := by
  decide

theorem fallback_rotation1 :
    ∀ c0, c0 ∈ [0, 1, 2] → ∀ c1, c1 ∈ [0, 1, 2] → ∀ c3, c3 ∈ [0, 1, 2] → ∀ c4, c4 ∈ [0, 1, 2] →
      game_winner ⟨c0, c1, 1, c3, c4, 0, 1, 0, 0⟩ TRUE ≠ TRUE →
      check_wins_or_losses ⟨c0, c1, 1, c3, c4, 0, 1, 0, 0⟩ TRUE = 0xFF →
      (⟨c0, c1, 1, c3, c4, 0, 1, 0, 0⟩ : Board) = ⟨0, 0, 1, 0, 2, 0, 1, 0, 0⟩ := by
  decide

theorem fallback_rotation2 :
    ∀ c3, c3 ∈ [0, 1, 2] → ∀ c4, c4 ∈ [0, 1, 2] → ∀ c6, c6 ∈ [0, 1, 2] → ∀ c7, c7 ∈ [0, 1, 2] →
      game_winner ⟨1, 0, 0, c3, c4, 0, c6, c7, 1⟩ TRUE ≠ TRUE →
      check_wins_or_losses ⟨1, 0, 0, c3, c4, 0, c6, c7, 1⟩ TRUE = 0xFF →
      (⟨1, 0, 0, c3, c4, 0, c6, c7, 1⟩ : Board) = ⟨1, 0, 0, 0, 2, 0, 0, 0, 1⟩ := by
  decide

theorem fallback_rotation3 :
    ∀ c4, c4 ∈ [0, 1, 2] → ∀ c5, c5 ∈ [0, 1, 2] → ∀ c7, c7 ∈ [0, 1, 2] → ∀ c8, c8 ∈ [0, 1, 2] →
      game_winner ⟨0, 0, 1, 0, c4, c5, 1, c7, c8⟩ TRUE ≠ TRUE →
      check_wins_or_losses ⟨0, 0, 1, 0, c4, c5, 1, c7, c8⟩ TRUE = 0xFF →
      (⟨0, 0, 1, 0, c4, c5, 1, c7, c8⟩ : Board) = ⟨0, 0, 1, 0, 2, 0, 1, 0, 0⟩ := by
  decide

/-- Under the premises of the fork-block fallback the board is one of two:
player 1 on two opposite corners, player 2 on the centre, all else empty. -/
theorem fallback_boards (board : Board) (hv : board.Valid) (hn1 : ¬ board.hasLine 1)
    (hw : check_wins_or_losses board TRUE = 0xFF)
    (hp : ∃ t, (t = board ∨ t = rotate board ∨ t = rotate (rotate board) ∨
        t = rotate (rotate (rotate board))) ∧
      t.get 0 = 1 ∧ t.get 8 = 1 ∧ t.get 3 = 0 ∧ t.get 6 = 0 ∧ t.get 7 = 0) :
    board = ⟨1, 0, 0, 0, 2, 0, 0, 0, 1⟩ ∨ board = ⟨0, 0, 1, 0, 2, 0, 1, 0, 0⟩ := by
  have hg : game_winner board TRUE ≠ TRUE := fun h => hn1 ((game_winner_TRUE_iff board).1 h)
  have v0 := mem_marks _ (hv 0 (by decide))
  have v1 := mem_marks _ (hv 1 (by decide))
  have v2 := mem_marks _ (hv 2 (by decide))
  have v3 := mem_marks _ (hv 3 (by decide))
  have v4 := mem_marks _ (hv 4 (by decide))
  have v5 := mem_marks _ (hv 5 (by decide))
  have v6 := mem_marks _ (hv 6 (by decide))
  have v7 := mem_marks _ (hv 7 (by decide))
  have v8 := mem_marks _ (hv 8 (by decide))
  obtain ⟨a0, a1, a2, a3, a4, a5, a6, a7, a8⟩ := board
  simp only [get_mk] at v0 v1 v2 v3 v4 v5 v6 v7 v8
  obtain ⟨t, ht, h0, h8, h3, h6, h7⟩ := hp
  simp only [rotate_mk] at ht
  rcases ht with rfl | rfl | rfl | rfl <;> simp only [get_mk] at h0 h8 h3 h6 h7 <;>
    subst h0 h8 h3 h6 h7
  · exact Or.inl (fallback_rotation0 _ v1 _ v2 _ v4 _ v5 hg hw)
  · exact Or.inr (fallback_rotation1 _ v0 _ v1 _ v3 _ v4 hg hw)
  · exact Or.inl (fallback_rotation2 _ v3 _ v4 _ v6 _ v7 hg hw)
  · exact Or.inr (fallback_rotation3 _ v4 _ v5 _ v7 _ v8 hg hw)

set_option maxRecDepth 100000 in
theorem port_restored :
    ∀ p, p < 256 → ∀ k, k < 5 → p &&& 0x1F = 0 → and_not8 (p ||| 1 <<< k) (1 <<< k) = p := by
  decide

theorem led_pulse_eq (k : Nat) (s : Leds) (hk : k < 5) (hp : s.port < 256)
    (h0 : s.port &&& 0x1F = 0) :
    led_pulse (1 <<< k) s = { s with pulses := s.pulses ++ [(s.ddr, s.port ||| 1 <<< k)] } := by
  unfold led_pulse
  simp only [port_restored s.port hp k hk h0]

/-- The `if(board[i + off] != 0) ...` statement of a cell loop adds the pulse
of the cell to the log and changes nothing else. -/
theorem cell_statement_eq (c i step : Nat) (s : Leds) (hi : i + step < 5) (hp : s.port < 256)
    (h0 : s.port &&& 0x1F = 0) :
    (if c ≠ 0 then
        if c = 2 then led_pulse (1 <<< i) s
        else if c = 1 then led_pulse (1 <<< (i + step)) s
        else s
      else s) =
      { s with pulses := s.pulses ++
          (if c = 2 then [(s.ddr, s.port ||| 1 <<< i)]
            else if c = 1 then [(s.ddr, s.port ||| 1 <<< (i + step))]
            else []) } := by
  by_cases h2 : c = 2
  · rw [if_pos (by omega), if_pos h2, if_pos h2, led_pulse_eq i s (by omega) hp h0]
  · by_cases h1 : c = 1
    · rw [if_pos (by omega), if_neg h2, if_pos h1, if_neg h2, if_pos h1,
        led_pulse_eq (i + step) s (by omega) hp h0]
    · rw [if_neg h2, if_neg h1, if_neg h2, if_neg h1]
      simp

theorem isr_cells_loop_eq (board : Board) (off step : Nat) :
    ∀ n i s, s.port < 256 → s.port &&& 0x1F = 0 → i + n + step ≤ 5 →
      isr_cells_loop board off step n i s =
        { s with ddr := ddr_shifted n s.ddr,
                 pulses := s.pulses ++ cells_trace board off step n i s.ddr s.port } := by
  intro n
  induction n with
  | zero =>
    intro i s _ _ _
    simp [isr_cells_loop, ddr_shifted, cells_trace]
  | succ n ih =>
    intro i s hp h0 hi
    rw [isr_cells_loop]
    rw [cell_statement_eq _ i step s (by omega) hp h0]
    simp only []
    rw [ih (i + 1) ⟨(s.ddr <<< 1) % 256, s.port, s.count, s.LED_state, s.tcnt2, s.pulses ++ _⟩
      hp h0 (by omega)]
    simp [ddr_shifted, cells_trace]

theorem led_pulse_frame (m : Nat) (s : Leds) :
    (led_pulse m s).ddr = s.ddr ∧ (led_pulse m s).count = s.count ∧
    (led_pulse m s).LED_state = s.LED_state ∧ (led_pulse m s).tcnt2 = s.tcnt2 ∧
    (led_pulse m s).pulses = s.pulses ++ [(s.ddr, s.port ||| m)] ∧
    (led_pulse m s).port = and_not8 (s.port ||| m) m :=
  ⟨rfl, rfl, rfl, rfl, rfl, rfl⟩

/-- What a cell loop does whatever `LED_PORT` holds: `LED_DDR` is shifted
once per iteration, `count`, `LED_state` and `TCNT2` are not written, and at
most one pulse per iteration is logged. -/
theorem isr_cells_loop_frame (board : Board) (off step : Nat) :
    ∀ n i s,
      (isr_cells_loop board off step n i s).ddr = ddr_shifted n s.ddr ∧
      (isr_cells_loop board off step n i s).count = s.count ∧
      (isr_cells_loop board off step n i s).LED_state = s.LED_state ∧
      (isr_cells_loop board off step n i s).tcnt2 = s.tcnt2 ∧
      s.pulses.length ≤ (isr_cells_loop board off step n i s).pulses.length ∧
      (isr_cells_loop board off step n i s).pulses.length ≤ s.pulses.length + n := by
  intro n
  induction n with
  | zero =>
    intro i s
    simp [isr_cells_loop, ddr_shifted]
  | succ n ih =>
    intro i s
    rw [isr_cells_loop]
    by_cases h2 : board.get (i + off) = 2
    · rw [if_pos (by omega), if_pos h2]
      obtain ⟨e1, e2, e3, e4, e5, e6⟩ := ih (i + 1)
        { led_pulse (1 <<< i) s with ddr := ((led_pulse (1 <<< i) s).ddr <<< 1) % 256 }
      rw [e1, e2, e3, e4]
      refine ⟨rfl, rfl, rfl, rfl, ?_, ?_⟩ <;>
        simp only [led_pulse, List.length_append, List.length_singleton] at e5 e6 ⊢ <;> omega
    · by_cases h1 : board.get (i + off) = 1
      · rw [if_pos (by omega), if_neg h2, if_pos h1]
        obtain ⟨e1, e2, e3, e4, e5, e6⟩ := ih (i + 1)
          { led_pulse (1 <<< (i + step)) s with
            ddr := ((led_pulse (1 <<< (i + step)) s).ddr <<< 1) % 256 }
        rw [e1, e2, e3, e4]
        refine ⟨rfl, rfl, rfl, rfl, ?_, ?_⟩ <;>
          simp only [led_pulse, List.length_append, List.length_singleton] at e5 e6 ⊢ <;> omega
      · rw [if_neg h2, if_neg h1, ite_self]
        obtain ⟨e1, e2, e3, e4, e5, e6⟩ := ih (i + 1) { s with ddr := (s.ddr <<< 1) % 256 }
        rw [e1, e2, e3, e4]
        refine ⟨rfl, rfl, rfl, rfl, ?_, ?_⟩ <;> simp only at e5 e6 ⊢ <;> omega

theorem isr_board_leds_sections (board : Board) (s : Leds) :
    isr_board_leds board s =
      isr_cells_section board 7 3 2 0x09 (isr_cells_section board 4 2 3 0x05
        (isr_cells_section board 0 1 4 0x03 s)) := rfl

theorem isr_cells_section_frame (board : Board) (off step n m : Nat) (s : Leds) :
    (isr_cells_section board off step n m s).ddr = ddr_shifted n (and_not8 s.ddr 0x1F ||| m) ∧
    (isr_cells_section board off step n m s).count = s.count ∧
    (isr_cells_section board off step n m s).LED_state = s.LED_state ∧
    (isr_cells_section board off step n m s).tcnt2 = s.tcnt2 ∧
    (isr_cells_section board off step n m s).pulses.length ≤ s.pulses.length + n := by
  obtain ⟨a1, a2, a3, a4, _, a6⟩ := isr_cells_loop_frame board off step n 0
    { s with ddr := and_not8 s.ddr 0x1F ||| m }
  exact ⟨a1, a2, a3, a4, a6⟩

theorem isr_board_leds_frame (board : Board) (s : Leds) :
    (isr_board_leds board s).ddr = board_leds_ddr s.ddr ∧
    (isr_board_leds board s).count = s.count ∧
    (isr_board_leds board s).LED_state = s.LED_state ∧
    (isr_board_leds board s).tcnt2 = s.tcnt2 ∧
    (isr_board_leds board s).pulses.length ≤ s.pulses.length + 9 := by
  rw [isr_board_leds_sections]
  obtain ⟨a1, a2, a3, a4, a5⟩ := isr_cells_section_frame board 0 1 4 0x03 s
  obtain ⟨b1, b2, b3, b4, b5⟩ := isr_cells_section_frame board 4 2 3 0x05
    (isr_cells_section board 0 1 4 0x03 s)
  obtain ⟨c1, c2, c3, c4, c5⟩ := isr_cells_section_frame board 7 3 2 0x09
    (isr_cells_section board 4 2 3 0x05 (isr_cells_section board 0 1 4 0x03 s))
  refine ⟨?_, ?_, ?_, ?_, ?_⟩
  · rw [c1, b1, a1]
    rfl
  · rw [c2, b2, a2]
  · rw [c3, b3, a3]
  · rw [c4, b4, a4]
  · omega

theorem and_not8_low (x : Nat) : and_not8 x 0x1F < 256 ∧ and_not8 x 0x1F &&& 0x1F = 0 := by
  unfold and_not8
  constructor
  · exact Nat.lt_of_le_of_lt Nat.and_le_right (by decide)
  · rw [Nat.land_assoc]
    exact Nat.and_zero x

set_option maxRecDepth 100000 in
theorem port_line :
    ∀ p, p < 256 → ∀ k, k < 5 → p &&& 0x1F = 0 → (p ||| 1 <<< k) &&& 0x1F = 1 <<< k := by
  decide

set_option maxRecDepth 100000 in
theorem ddr_pairs :
    ∀ y, y < 256 → y &&& 0x1F = 0 →
      (y ||| 0x03) &&& 0x1F = 0x03 ∧ ddr_shifted 1 (y ||| 0x03) &&& 0x1F = 0x06 ∧
      ddr_shifted 2 (y ||| 0x03) &&& 0x1F = 0x0C ∧ ddr_shifted 3 (y ||| 0x03) &&& 0x1F = 0x18 ∧
      (y ||| 0x05) &&& 0x1F = 0x05 ∧ ddr_shifted 1 (y ||| 0x05) &&& 0x1F = 0x0A ∧
      ddr_shifted 2 (y ||| 0x05) &&& 0x1F = 0x14 ∧
      (y ||| 0x09) &&& 0x1F = 0x09 ∧ ddr_shifted 1 (y ||| 0x09) &&& 0x1F = 0x12 ∧
      (y ||| 0x11) &&& 0x1F = 0x11 := by
  decide

theorem pulse_low5 (board : Board) (k i j d p : Nat) (hd : d &&& 0x1F = led_pair k)
    (hi : (p ||| 1 <<< i) &&& 0x1F = led_line k 2)
    (hj : (p ||| 1 <<< j) &&& 0x1F = led_line k 1) :
    (if board.get k = 2 then [(d, p ||| 1 <<< i)]
      else if board.get k = 1 then [(d, p ||| 1 <<< j)]
      else []).map low5 = cell_pulse board k := by
  unfold cell_pulse
  split_ifs <;> simp [low5, hd, hi, hj]

theorem isr_cells_section_eq (board : Board) (off step n m : Nat) (s : Leds)
    (hp : s.port < 256) (h0 : s.port &&& 0x1F = 0) (hn : n + step ≤ 5) :
    isr_cells_section board off step n m s =
      { s with ddr := ddr_shifted n (and_not8 s.ddr 0x1F ||| m),
               pulses := s.pulses ++
                 cells_trace board off step n 0 (and_not8 s.ddr 0x1F ||| m) s.port } := by
  unfold isr_cells_section
  rw [isr_cells_loop_eq board off step n 0
    ⟨and_not8 s.ddr 0x1F ||| m, s.port, s.count, s.LED_state, s.tcnt2, s.pulses⟩ hp h0
    (by omega)]

theorem cells_trace_first (board : Board) (y p : Nat) (hy : y < 256) (hy0 : y &&& 0x1F = 0)
    (hp : p < 256) (h0 : p &&& 0x1F = 0) :
    (cells_trace board 0 1 4 0 (y ||| 0x03) p).map low5 =
      cell_pulse board 0 ++ cell_pulse board 1 ++ cell_pulse board 2 ++ cell_pulse board 3 := by
  obtain ⟨d0, d1, d2, d3, -⟩ := ddr_pairs y hy hy0
  have e : cells_trace board 0 1 4 0 (y ||| 0x03) p =
      (if board.get 0 = 2 then [(y ||| 0x03, p ||| 1 <<< 0)]
        else if board.get 0 = 1 then [(y ||| 0x03, p ||| 1 <<< 1)] else []) ++
      ((if board.get 1 = 2 then [(ddr_shifted 1 (y ||| 0x03), p ||| 1 <<< 1)]
        else if board.get 1 = 1 then [(ddr_shifted 1 (y ||| 0x03), p ||| 1 <<< 2)] else []) ++
      ((if board.get 2 = 2 then [(ddr_shifted 2 (y ||| 0x03), p ||| 1 <<< 2)]
        else if board.get 2 = 1 then [(ddr_shifted 2 (y ||| 0x03), p ||| 1 <<< 3)] else []) ++
      ((if board.get 3 = 2 then [(ddr_shifted 3 (y ||| 0x03), p ||| 1 <<< 3)]
        else if board.get 3 = 1 then [(ddr_shifted 3 (y ||| 0x03), p ||| 1 <<< 4)] else []) ++
      []))) := rfl
  rw [e, List.map_append, List.map_append, List.map_append, List.map_append,
    pulse_low5 board 0 0 1 _ p d0 (port_line p hp 0 (by decide) h0)
      (port_line p hp 1 (by decide) h0),
    pulse_low5 board 1 1 2 _ p d1 (port_line p hp 1 (by decide) h0)
      (port_line p hp 2 (by decide) h0),
    pulse_low5 board 2 2 3 _ p d2 (port_line p hp 2 (by decide) h0)
      (port_line p hp 3 (by decide) h0),
    pulse_low5 board 3 3 4 _ p d3 (port_line p hp 3 (by decide) h0)
      (port_line p hp 4 (by decide) h0)]
  simp

theorem cells_trace_second (board : Board) (y p : Nat) (hy : y < 256) (hy0 : y &&& 0x1F = 0)
    (hp : p < 256) (h0 : p &&& 0x1F = 0) :
    (cells_trace board 4 2 3 0 (y ||| 0x05) p).map low5 =
      cell_pulse board 4 ++ cell_pulse board 5 ++ cell_pulse board 6 := by
  obtain ⟨-, -, -, -, d0, d1, d2, -⟩ := ddr_pairs y hy hy0
  have e : cells_trace board 4 2 3 0 (y ||| 0x05) p =
      (if board.get 4 = 2 then [(y ||| 0x05, p ||| 1 <<< 0)]
        else if board.get 4 = 1 then [(y ||| 0x05, p ||| 1 <<< 2)] else []) ++
      ((if board.get 5 = 2 then [(ddr_shifted 1 (y ||| 0x05), p ||| 1 <<< 1)]
        else if board.get 5 = 1 then [(ddr_shifted 1 (y ||| 0x05), p ||| 1 <<< 3)] else []) ++
      ((if board.get 6 = 2 then [(ddr_shifted 2 (y ||| 0x05), p ||| 1 <<< 2)]
        else if board.get 6 = 1 then [(ddr_shifted 2 (y ||| 0x05), p ||| 1 <<< 4)] else []) ++
      [])) := rfl
  rw [e, List.map_append, List.map_append, List.map_append,
    pulse_low5 board 4 0 2 _ p d0 (port_line p hp 0 (by decide) h0)
      (port_line p hp 2 (by decide) h0),
    pulse_low5 board 5 1 3 _ p d1 (port_line p hp 1 (by decide) h0)
      (port_line p hp 3 (by decide) h0),
    pulse_low5 board 6 2 4 _ p d2 (port_line p hp 2 (by decide) h0)
      (port_line p hp 4 (by decide) h0)]
  simp

theorem cells_trace_third (board : Board) (y p : Nat) (hy : y < 256) (hy0 : y &&& 0x1F = 0)
    (hp : p < 256) (h0 : p &&& 0x1F = 0) :
    (cells_trace board 7 3 2 0 (y ||| 0x09) p).map low5 =
      cell_pulse board 7 ++ cell_pulse board 8 := by
  obtain ⟨-, -, -, -, -, -, -, d0, d1, -⟩ := ddr_pairs y hy hy0
  have e : cells_trace board 7 3 2 0 (y ||| 0x09) p =
      (if board.get 7 = 2 then [(y ||| 0x09, p ||| 1 <<< 0)]
        else if board.get 7 = 1 then [(y ||| 0x09, p ||| 1 <<< 3)] else []) ++
      ((if board.get 8 = 2 then [(ddr_shifted 1 (y ||| 0x09), p ||| 1 <<< 1)]
        else if board.get 8 = 1 then [(ddr_shifted 1 (y ||| 0x09), p ||| 1 <<< 4)] else []) ++
      []) := rfl
  rw [e, List.map_append, List.map_append,
    pulse_low5 board 7 0 3 _ p d0 (port_line p hp 0 (by decide) h0)
      (port_line p hp 3 (by decide) h0),
    pulse_low5 board 8 1 4 _ p d1 (port_line p hp 1 (by decide) h0)
      (port_line p hp 4 (by decide) h0)]
  simp

theorem isr_cells_section_trace (board : Board) (off step n m : Nat) (s : Leds)
    (hp : s.port < 256) (h0 : s.port &&& 0x1F = 0) (hn : n + step ≤ 5) :
    (isr_cells_section board off step n m s).port = s.port ∧
    (isr_cells_section board off step n m s).pulses =
      s.pulses ++ cells_trace board off step n 0 (and_not8 s.ddr 0x1F ||| m) s.port := by
  rw [isr_cells_section_eq board off step n m s hp h0 hn]
  exact ⟨rfl, rfl⟩

/-- With the five LED bits of `LED_PORT` clear on entry, the section "Main
board LEDs" leaves `LED_PORT` as it was and logs the pulses of the nine
cells in cell order. -/
theorem isr_board_leds_trace (board : Board) (s : Leds) (hp : s.port < 256)
    (h0 : s.port &&& 0x1F = 0) :
    (isr_board_leds board s).port = s.port ∧
    (isr_board_leds board s).pulses.map low5 = s.pulses.map low5 ++ board_pulses board := by
  rw [isr_board_leds_sections]
  obtain ⟨p1, q1⟩ := isr_cells_section_trace board 0 1 4 0x03 s hp h0 (by omega)
  generalize isr_cells_section board 0 1 4 0x03 s = s1 at p1 q1 ⊢
  obtain ⟨p2, q2⟩ := isr_cells_section_trace board 4 2 3 0x05 s1 (by rw [p1]; exact hp)
    (by rw [p1]; exact h0) (by omega)
  generalize isr_cells_section board 4 2 3 0x05 s1 = s2 at p2 q2 ⊢
  obtain ⟨p3, q3⟩ := isr_cells_section_trace board 7 3 2 0x09 s2
    (by rw [p2, p1]; exact hp) (by rw [p2, p1]; exact h0) (by omega)
  generalize isr_cells_section board 7 3 2 0x09 s2 = s3 at p3 q3 ⊢
  refine ⟨by rw [p3, p2, p1], ?_⟩
  rw [q3, q2, q1, p2, p1]
  simp only [List.map_append]
  rw [cells_trace_first board _ s.port (and_not8_low _).1 (and_not8_low _).2 hp h0,
    cells_trace_second board _ s.port (and_not8_low _).1 (and_not8_low _).2 hp h0,
    cells_trace_third board _ s.port (and_not8_low _).1 (and_not8_low _).2 hp h0]
  simp [board_pulses]

theorem isr_player_leds_frame (winner player_turn : Nat) (s : Leds) :
    (isr_player_leds winner player_turn s).ddr = and_not8 s.ddr 0x1F ||| 0x11 ∧
    (isr_player_leds winner player_turn s).tcnt2 = s.tcnt2 ∧
    (winner ≠ 0 → (isr_player_leds winner player_turn s).count = s.count ∧
      (isr_player_leds winner player_turn s).LED_state = s.LED_state) ∧
    (winner = 0 →
      (isr_player_leds winner player_turn s).count =
        (if (s.count + 1) % 256 = 46 then 0 else (s.count + 1) % 256) ∧
      (isr_player_leds winner player_turn s).LED_state =
        (if (s.count + 1) % 256 = 46 then s.LED_state ^^^ 1 else s.LED_state)) ∧
    (isr_player_leds winner player_turn s).pulses.length ≤ s.pulses.length + 2 ∧
    (winner = 0 ∨ winner = 1 ∨ winner = 2 →
      (isr_player_leds winner player_turn s).pulses.length ≤ s.pulses.length + 1) := by
  unfold isr_player_leds
  simp only []
  split_ifs <;> simp_all [led_pulse]

/-- With the five LED bits of `LED_PORT` clear on entry, the section "Player
LEDs" leaves `LED_PORT` as it was and logs the pulses of `player_pulses`. -/
theorem isr_player_leds_trace (winner player_turn : Nat) (s : Leds) (hp : s.port < 256)
    (h0 : s.port &&& 0x1F = 0) :
    (isr_player_leds winner player_turn s).port = s.port ∧
    (isr_player_leds winner player_turn s).pulses.map low5 =
      s.pulses.map low5 ++
        player_pulses winner player_turn (isr_player_leds winner player_turn s).LED_state := by
  have hd : (and_not8 s.ddr 0x1F ||| 0x11) &&& 0x1F = 0x11 :=
    (ddr_pairs _ (and_not8_low s.ddr).1 (and_not8_low s.ddr).2).2.2.2.2.2.2.2.2.2
  have h16 : (s.port ||| 0x10) &&& 0x1F = 0x10 := port_line s.port hp 4 (by decide) h0
  have h1 : (s.port ||| 1) &&& 0x1F = 1 := port_line s.port hp 0 (by decide) h0
  have hhigh : ∀ d c l t ps, led_pulse 0x10 ⟨d, s.port, c, l, t, ps⟩ =
      ⟨d, s.port, c, l, t, ps ++ [(d, s.port ||| 0x10)]⟩ :=
    fun d c l t ps => led_pulse_eq 4 ⟨d, s.port, c, l, t, ps⟩ (by decide) hp h0
  have hlow : ∀ d c l t ps, led_pulse 1 ⟨d, s.port, c, l, t, ps⟩ =
      ⟨d, s.port, c, l, t, ps ++ [(d, s.port ||| 1)]⟩ :=
    fun d c l t ps => led_pulse_eq 0 ⟨d, s.port, c, l, t, ps⟩ (by decide) hp h0
  unfold isr_player_leds player_pulses
  simp only []
  split_ifs <;>
    simp only [hhigh, hlow, List.map_append, List.map_cons,
      List.map_nil, low5, hd, h16, h1, led_pair, led_line, List.append_assoc,
      List.singleton_append, List.append_nil, and_self] <;>
    simp_all

set_option maxRecDepth 100000 in
theorem final_ddr :
    ∀ y, y < 256 → y &&& 0x1F = 0 →
      and_not8 (and_not8 (ddr_shifted 2 (and_not8 (ddr_shifted 3 (and_not8
        (ddr_shifted 4 (y ||| 0x03)) 0x1F ||| 0x05)) 0x1F ||| 0x09)) 0x1F ||| 0x11) 0x1F = 0xA0 := by
  decide

theorem isr_pulses (board : Board) (winner player_turn : Nat) (s : Leds) :
    (isr board winner player_turn s).pulses =
      (isr_player_leds winner player_turn (isr_board_leds board s)).pulses ∧
    (isr board winner player_turn s).port =
      (isr_player_leds winner player_turn (isr_board_leds board s)).port ∧
    (isr board winner player_turn s).count =
      (isr_player_leds winner player_turn (isr_board_leds board s)).count ∧
    (isr board winner player_turn s).LED_state =
      (isr_player_leds winner player_turn (isr_board_leds board s)).LED_state ∧
    (isr board winner player_turn s).ddr =
      and_not8 (isr_player_leds winner player_turn (isr_board_leds board s)).ddr 0x1F ∧
    (isr board winner player_turn s).tcnt2 = 0 :=
  ⟨rfl, rfl, rfl, rfl, rfl, rfl⟩

/-- Whatever the registers hold on entry, a run of the handler leaves
`LED_DDR` at 0xA0. -/
theorem isr_ddr (board : Board) (winner player_turn : Nat) (s : Leds) :
    (isr board winner player_turn s).ddr = 0xA0 := by
  rw [(isr_pulses board winner player_turn s).2.2.2.2.1,
    (isr_player_leds_frame winner player_turn _).1, (isr_board_leds_frame board s).1]
  exact final_ddr _ (and_not8_low s.ddr).1 (and_not8_low s.ddr).2

/-- The blink counter and the number of pulses of one run of the handler. -/
theorem isr_frame (board : Board) (winner player_turn : Nat) (s : Leds) :
    (winner ≠ 0 → (isr board winner player_turn s).count = s.count ∧
      (isr board winner player_turn s).LED_state = s.LED_state) ∧
    (winner = 0 →
      (isr board winner player_turn s).count =
        (if (s.count + 1) % 256 = 46 then 0 else (s.count + 1) % 256) ∧
      (isr board winner player_turn s).LED_state =
        (if (s.count + 1) % 256 = 46 then s.LED_state ^^^ 1 else s.LED_state)) ∧
    (isr board winner player_turn s).pulses.length ≤ s.pulses.length + 11 ∧
    (winner = 0 ∨ winner = 1 ∨ winner = 2 →
      (isr board winner player_turn s).pulses.length ≤ s.pulses.length + 10) := by
  obtain ⟨e1, -, e3, e4, -, -⟩ := isr_pulses board winner player_turn s
  obtain ⟨-, b2, b3, -, b5⟩ := isr_board_leds_frame board s
  obtain ⟨-, -, p3, p4, p5, p6⟩ := isr_player_leds_frame winner player_turn
    (isr_board_leds board s)
  rw [e1, e3, e4]
  rw [b2, b3] at p3 p4
  exact ⟨p3, p4, by omega, fun h => by have := p6 h; omega⟩

/-- With the five LED bits of `LED_PORT` clear on entry, a run of the handler
leaves `LED_PORT` as it was and logs the cell pulses in cell order, then the
indicator pulses. -/
theorem isr_trace (board : Board) (winner player_turn : Nat) (s : Leds) (hp : s.port < 256)
    (h0 : s.port &&& 0x1F = 0) :
    (isr board winner player_turn s).port = s.port ∧
    (isr board winner player_turn s).pulses.map low5 =
      s.pulses.map low5 ++ board_pulses board ++
        player_pulses winner player_turn (isr board winner player_turn s).LED_state := by
  obtain ⟨e1, e2, -, e4, -, -⟩ := isr_pulses board winner player_turn s
  obtain ⟨b1, b2⟩ := isr_board_leds_trace board s hp h0
  obtain ⟨p1, p2⟩ := isr_player_leds_trace winner player_turn (isr_board_leds board s)
    (by rw [b1]; exact hp) (by rw [b1]; exact h0)
  rw [e1, e2, e4, p1, p2, b1, b2]
  exact ⟨rfl, rfl⟩

theorem xor_one_of_lt (x : Nat) (h : x < 2) : x ^^^ 1 = 1 - x := by
  interval_cases x <;> rfl

theorem isr_ticks_phase :
    ∀ (ticks : List (Board × Nat)) (s : Leds) (n : Nat),
      s.count = n % 46 → s.LED_state = (n / 46) % 2 →
      (isr_ticks ticks s).count = (n + ticks.length) % 46 ∧
      (isr_ticks ticks s).LED_state = ((n + ticks.length) / 46) % 2 := by
  intro ticks
  induction ticks with
  | nil =>
    intro s n hc hl
    exact ⟨hc, hl⟩
  | cons tick ticks ih =>
    intro s n hc hl
    obtain ⟨board, player_turn⟩ := tick
    rw [isr_ticks, List.length_cons, ← Nat.add_assoc, Nat.add_right_comm]
    obtain ⟨c1, l1⟩ := (isr_frame board 0 player_turn { s with pulses := [] }).2.1 rfl
    simp only at c1 l1
    refine ih _ (n + 1) ?_ ?_
    · rw [c1, hc]
      split_ifs <;> omega
    · rw [l1, hc, hl]
      have hx := xor_one_of_lt ((n / 46) % 2) (by omega)
      split_ifs <;> omega

/-- For every board and blink state and every `winner` of 0, 1 or 2, one
run of the handler logs at most 10 pulses, whose total duration, the number
of pulses times `LED_DELAY`, is less than the period of the timer overflow;
for every `winner` the run logs at most 11 pulses. -/
theorem isr_within_tick_unless_tie (board : Board) (winner player_turn d p c l t : Nat) :
    (winner = 0 ∨ winner = 1 ∨ winner = 2 →
      (isr board winner player_turn (Leds.start d p c l t)).pulses.length ≤ 10 ∧
      (isr board winner player_turn (Leds.start d p c l t)).pulses.length * LED_DELAY
        < TICK_PERIOD) ∧
    (isr board winner player_turn (Leds.start d p c l t)).pulses.length ≤ 11 := by
  obtain ⟨-, -, h11, h10⟩ := isr_frame board winner player_turn (Leds.start d p c l t)
  have hz : (Leds.start d p c l t).pulses.length = 0 := rfl
  rw [hz, Nat.zero_add] at h11 h10
  refine ⟨fun hw => ?_, h11⟩
  have := h10 hw
  refine ⟨this, ?_⟩
  unfold LED_DELAY TICK_PERIOD
  omega

/-! ## The claims -/

/-- C1: for every board (of cells 0, 1, 2, and of any other cell values as
well) that has an empty cell, `cpu_turn` changes exactly one cell: a cell
that was 0 becomes 2 and the other eight keep their values.  For every board
with no empty cell, `cpu_turn` leaves all nine cells unchanged. -/
theorem cpu_turn_changes_one_empty_cell (board : Board) :
    ((∃ i, i < 9 ∧ board.get i = 0) →
      ∃ j, j < 9 ∧ board.get j = 0 ∧ (cpu_turn board).get j = 2 ∧
        ∀ k, k < 9 → k ≠ j → (cpu_turn board).get k = board.get k) ∧
    ((∀ i, i < 9 → board.get i ≠ 0) → cpu_turn board = board) := by
  constructor
  · rintro ⟨i, hi, h0⟩
    rcases cpu_turn_effect board with ⟨j, hj, hj0, he⟩ | ⟨hfull, _⟩
    · refine ⟨j, by omega, hj0, ?_, ?_⟩
      · rw [he]
        exact Board.get_set_self board j 2 (by omega)
      · intro k _ hk
        rw [he]
        exact Board.get_set_other board j k 2 hk
    · exact absurd h0 (hfull i hi)
  · intro hfull
    rcases cpu_turn_effect board with ⟨j, hj, hj0, _⟩ | ⟨_, he⟩
    · exact absurd hj0 (hfull j (by omega))
    · exact he

theorem cpu_turn_changes_one_empty_cell_witness :
    (∃ i, i < 9 ∧ (⟨1, 0, 0, 0, 0, 0, 0, 0, 0⟩ : Board).get i = 0) ∧
    (∃ j, j < 9 ∧ (⟨1, 0, 0, 0, 0, 0, 0, 0, 0⟩ : Board).get j = 0 ∧
      (cpu_turn ⟨1, 0, 0, 0, 0, 0, 0, 0, 0⟩).get j = 2 ∧
        ∀ k, k < 9 → k ≠ j →
          (cpu_turn ⟨1, 0, 0, 0, 0, 0, 0, 0, 0⟩).get k =
            (⟨1, 0, 0, 0, 0, 0, 0, 0, 0⟩ : Board).get k) ∧
    (∀ i, i < 9 → (⟨1, 2, 1, 1, 2, 2, 2, 1, 1⟩ : Board).get i ≠ 0) ∧
    cpu_turn ⟨1, 2, 1, 1, 2, 2, 2, 1, 1⟩ = ⟨1, 2, 1, 1, 2, 2, 2, 1, 1⟩ :=
  ⟨⟨1, by decide, rfl⟩,
    (cpu_turn_changes_one_empty_cell ⟨1, 0, 0, 0, 0, 0, 0, 0, 0⟩).1 ⟨1, by decide, rfl⟩,
    by intro i hi; interval_cases i <;> decide,
    (cpu_turn_changes_one_empty_cell ⟨1, 2, 1, 1, 2, 2, 2, 1, 1⟩).2
      (by intro i hi; interval_cases i <;> decide)⟩


/-- C2 (win-now law): for every board on which some line holds two 2s and
one empty cell, `cpu_turn` plays the empty cell of such a line, so that
after `cpu_turn` player 2 has a completed line: `game_winner` for player 2
returns `TRUE`. -/
theorem cpu_turn_wins_now (board : Board) (h : board.hasOpenLine 2) :
    ∃ l, l ∈ lines ∧ ∃ e, board.openAt 2 l e ∧ cpu_turn board = board.set e 2 ∧
      (cpu_turn board).holdsLine 2 l ∧ game_winner (cpu_turn board) FALSE = TRUE := by
  obtain ⟨l0, hl0, e0, ho0⟩ := h
  rcases check_wins_or_losses_TRUE board with hw | hw | hw
  · have hle := (threat_empty board 2 _ hw).1
    obtain ⟨l, hl, ho⟩ := hw
    have hcpu := cpu_turn_first board hle
    have hline : (cpu_turn board).holdsLine 2 l := by
      rw [hcpu]
      exact holdsLine_after board 2 l _ (by omega) ho
    exact ⟨l, hl, _, ho, hcpu, hline, (game_winner_FALSE_iff _).2 ⟨l, hl, hline⟩⟩
  · exact absurd ⟨l0, hl0, ho0⟩ (hw.1 e0)
  · exact absurd ⟨l0, hl0, ho0⟩ (hw.1 e0)

theorem cpu_turn_wins_now_witness :
    (⟨2, 0, 1, 1, 2, 0, 0, 1, 0⟩ : Board).hasOpenLine 2 ∧
      game_winner (cpu_turn ⟨2, 0, 1, 1, 2, 0, 0, 1, 0⟩) FALSE = TRUE :=
  ⟨⟨(0, 4, 8), by simp [lines], 8, Or.inr (Or.inr ⟨rfl, rfl, rfl, rfl⟩)⟩,
    (cpu_turn_wins_now ⟨2, 0, 1, 1, 2, 0, 0, 1, 0⟩
      ⟨(0, 4, 8), by simp [lines], 8, Or.inr (Or.inr ⟨rfl, rfl, rfl, rfl⟩)⟩).elim
      fun _ hl => hl.2.elim fun _ he => he.2.2.2⟩

/-- C3 (block law): for every board on which no line holds two 2s and one
empty cell, and some line holds two 1s and one empty cell, `cpu_turn` plays
the empty cell of a line that holds two 1s: it writes a 2 into that cell, so
that line is not a completed line of player 1. -/
theorem cpu_turn_blocks (board : Board) (h2 : ¬ board.hasOpenLine 2)
    (h1 : board.hasOpenLine 1) :
    ∃ l, l ∈ lines ∧ ∃ e, board.openAt 1 l e ∧ cpu_turn board = board.set e 2 ∧
      (cpu_turn board).get e = 2 ∧ ¬ (cpu_turn board).holdsLine 1 l := by
  obtain ⟨l0, hl0, e0, ho0⟩ := h1
  rcases check_wins_or_losses_TRUE board with hw | hw | hw
  · obtain ⟨l, hl, ho⟩ := hw
    exact absurd ⟨l, hl, _, ho⟩ h2
  · have hle := (threat_empty board 1 _ hw.2).1
    obtain ⟨l, hl, ho⟩ := hw.2
    have hcpu := cpu_turn_first board hle
    have hcell : (cpu_turn board).get (check_wins_or_losses board TRUE) = 2 := by
      rw [hcpu]
      exact Board.get_set_self board _ 2 (by omega)
    refine ⟨l, hl, _, ho, hcpu, hcell, ?_⟩
    rintro ⟨x, y, z⟩
    rcases openAt_mem board 1 l _ ho with hm | hm | hm
    · rw [hm, x] at hcell
      omega
    · rw [hm, y] at hcell
      omega
    · rw [hm, z] at hcell
      omega
  · exact absurd ⟨l0, hl0, ho0⟩ (hw.2.1 e0)


theorem cpu_turn_blocks_witness :
    ¬ (⟨1, 1, 0, 0, 2, 0, 0, 0, 0⟩ : Board).hasOpenLine 2 ∧
    (⟨1, 1, 0, 0, 2, 0, 0, 0, 0⟩ : Board).hasOpenLine 1 ∧
    ∃ l, l ∈ lines ∧ ∃ e, (⟨1, 1, 0, 0, 2, 0, 0, 0, 0⟩ : Board).openAt 1 l e ∧
      cpu_turn ⟨1, 1, 0, 0, 2, 0, 0, 0, 0⟩ = (⟨1, 1, 0, 0, 2, 0, 0, 0, 0⟩ : Board).set e 2 ∧
      (cpu_turn ⟨1, 1, 0, 0, 2, 0, 0, 0, 0⟩).get e = 2 ∧
      ¬ (cpu_turn ⟨1, 1, 0, 0, 2, 0, 0, 0, 0⟩).holdsLine 1 l :=
  have hno : ¬ (⟨1, 1, 0, 0, 2, 0, 0, 0, 0⟩ : Board).hasOpenLine 2 := by
    rintro ⟨l, hl, e, ho⟩
    have := (threat_iff _ 2 e).1 ⟨l, hl, ho⟩
    simp at this
  have hyes : (⟨1, 1, 0, 0, 2, 0, 0, 0, 0⟩ : Board).hasOpenLine 1 :=
    ⟨(0, 1, 2), by simp [lines], 2, Or.inr (Or.inr ⟨rfl, rfl, rfl, rfl⟩)⟩
  ⟨hno, hyes, cpu_turn_blocks ⟨1, 1, 0, 0, 2, 0, 0, 0, 0⟩ hno hyes⟩

/-- C4 fails on the code: with the computer enabled, the game in which
player 1 presses buttons 5, 7, 8 and 2 is a run of the loop of `main`, and
it reaches the board `[2,0,1, 0,2,1, 2,1,1]`, on which player 1 holds the
line 2-5-8; `game_is_over` then returns `TRUE` with `winner = 1`. -/
theorem computer_can_lose :
    main_loop [5, 7, 8, 2] (State.init TRUE) =
        { board := ⟨2, 0, 1, 0, 2, 1, 2, 1, 1⟩, player_turn := 2, winner := 1,
          cpu_is_playing := TRUE } ∧
    ∃ s, Reachable s ∧ s.board = ⟨2, 0, 1, 0, 2, 1, 2, 1, 1⟩ ∧ s.board.hasLine 1 ∧
      game_winner s.board TRUE = TRUE ∧ game_is_over s.board s.winner = (TRUE, 1) := by
  refine ⟨by decide, main_loop_body 2 (main_loop_body 8 (main_loop_body 7
    (main_loop_body 5 (State.init TRUE)))), ?_, by decide, ?_, by decide, by decide⟩
  · refine Reachable.step _ 2 (Reachable.step _ 8 (Reachable.step _ 7
      (Reachable.step _ 5 Reachable.init ?_ ?_) ?_ ?_) ?_ ?_) ?_ ?_
    · decide
    · exact Or.inr ⟨by decide, by decide⟩
    · decide
    · exact Or.inr ⟨by decide, by decide⟩
    · decide
    · exact Or.inr ⟨by decide, by decide⟩
    · decide
    · exact Or.inr ⟨by decide, by decide⟩
  · exact ⟨(2, 5, 8), by simp [lines], by decide, by decide, by decide⟩

/-- C5: for every board, `game_is_over` returns `TRUE` with `winner = 1`
when player 1 has a completed line; otherwise `TRUE` with `winner = 2` when
player 2 has one; otherwise `TRUE` with `winner = 3` when no cell is empty;
otherwise `FALSE`, leaving `winner` as it was. -/
theorem game_is_over_outcome (board : Board) (winner : Nat) :
    (board.hasLine 1 → game_is_over board winner = (TRUE, 1)) ∧
    (¬ board.hasLine 1 → board.hasLine 2 → game_is_over board winner = (TRUE, 2)) ∧
    (¬ board.hasLine 1 → ¬ board.hasLine 2 → (∀ i, i < 9 → board.get i ≠ 0) →
      game_is_over board winner = (TRUE, 3)) ∧
    (¬ board.hasLine 1 → ¬ board.hasLine 2 → (∃ i, i < 9 ∧ board.get i = 0) →
      game_is_over board winner = (FALSE, winner)) := by
  have h1 := game_winner_TRUE_iff board
  have h2 := game_winner_FALSE_iff board
  have b1 := game_winner_bool board TRUE
  have b2 := game_winner_bool board FALSE
  have he := has_empty_loop_iff board
  unfold game_is_over
  simp only [TRUE, FALSE] at *
  refine ⟨?_, ?_, ?_, ?_⟩
  · intro h
    rw [if_pos (by rw [h1.2 h]; decide)]
  · intro hn h
    have : game_winner board 1 = 0 := by
      rcases b1 with b1 | b1
      · exact absurd (h1.1 b1) hn
      · exact b1
    rw [if_neg (by simp [this]), if_pos (by rw [h2.2 h]; decide)]
  · intro hn1 hn2 hfull
    have e1 : game_winner board 1 = 0 := by
      rcases b1 with b1 | b1
      · exact absurd (h1.1 b1) hn1
      · exact b1
    have e2 : game_winner board 0 = 0 := by
      rcases b2 with b2 | b2
      · exact absurd (h2.1 b2) hn2
      · exact b2
    have e3 : has_empty_loop board 9 0 = false := by
      cases hh : has_empty_loop board 9 0
      · rfl
      · obtain ⟨i, hi, h0⟩ := he.1 hh
        exact absurd h0 (hfull i hi)
    simp [e1, e2, e3]
  · intro hn1 hn2 hex
    have e1 : game_winner board 1 = 0 := by
      rcases b1 with b1 | b1
      · exact absurd (h1.1 b1) hn1
      · exact b1
    have e2 : game_winner board 0 = 0 := by
      rcases b2 with b2 | b2
      · exact absurd (h2.1 b2) hn2
      · exact b2
    simp [e1, e2, he.2 hex]

theorem game_is_over_outcome_witness :
    game_is_over ⟨1, 1, 1, 2, 2, 0, 0, 0, 0⟩ 0 = (TRUE, 1) ∧
    game_is_over ⟨1, 1, 0, 2, 2, 2, 1, 0, 0⟩ 0 = (TRUE, 2) ∧
    game_is_over ⟨1, 2, 1, 1, 2, 2, 2, 1, 1⟩ 0 = (TRUE, 3) ∧
    game_is_over ⟨1, 0, 0, 0, 2, 0, 0, 0, 0⟩ 7 = (FALSE, 7) :=
  ⟨(game_is_over_outcome ⟨1, 1, 1, 2, 2, 0, 0, 0, 0⟩ 0).1
      ⟨(0, 1, 2), by simp [lines], rfl, rfl, rfl⟩,
    (game_is_over_outcome ⟨1, 1, 0, 2, 2, 2, 1, 0, 0⟩ 0).2.1
      (by rw [hasLine_iff]; decide) ⟨(3, 4, 5), by simp [lines], rfl, rfl, rfl⟩,
    (game_is_over_outcome ⟨1, 2, 1, 1, 2, 2, 2, 1, 1⟩ 0).2.2.1
      (by rw [hasLine_iff]; decide) (by rw [hasLine_iff]; decide)
      (by intro i hi; interval_cases i <;> decide),
    (game_is_over_outcome ⟨1, 0, 0, 0, 2, 0, 0, 0, 0⟩ 7).2.2.2
      (by rw [hasLine_iff]; decide) (by rw [hasLine_iff]; decide) ⟨1, by decide, rfl⟩⟩

/-- C6: for every board and each player `p`, `game_winner` called with a
non-zero argument for `p = 1` and with zero for `p = 2` returns `TRUE` if
and only if one of the eight lines has all three cells equal to `p`, and
returns `FALSE` otherwise. -/
theorem game_winner_iff_line (board : Board) (is_player_1 p : Nat)
    (hp : (is_player_1 ≠ 0 ∧ p = 1) ∨ (is_player_1 = 0 ∧ p = 2)) :
    (game_winner board is_player_1 = TRUE ↔
        ∃ l, l ∈ lines ∧ board.get l.1 = p ∧ board.get l.2.1 = p ∧ board.get l.2.2 = p) ∧
      (game_winner board is_player_1 = TRUE ∨ game_winner board is_player_1 = FALSE) := by
  refine ⟨?_, game_winner_bool board is_player_1⟩
  rw [game_winner_as_iff]
  rcases hp with ⟨h, rfl⟩ | ⟨h, rfl⟩
  · simp [h, Board.hasLine, Board.holdsLine]
  · simp [h, Board.hasLine, Board.holdsLine]

theorem game_winner_iff_line_witness :
    ((7 : Nat) ≠ 0 ∧ (1 : Nat) = 1 ∨ (7 : Nat) = 0 ∧ (1 : Nat) = 2) ∧
      game_winner ⟨2, 0, 1, 0, 1, 2, 1, 0, 0⟩ 7 = TRUE :=
  ⟨Or.inl ⟨by decide, rfl⟩,
    ((game_winner_iff_line ⟨2, 0, 1, 0, 1, 2, 1, 0, 0⟩ 7 1 (Or.inl ⟨by decide, rfl⟩)).1).2
      ⟨(2, 4, 6), by simp [lines], rfl, rfl, rfl⟩⟩

/-- C7: for every board of nine cells, whatever the cell values, applying
`rotate` four times in succession yields the original board. -/
theorem rotate_four_times (b : Board) : rotate (rotate (rotate (rotate b))) = b := by
  cases b; rfl

/-- C8: `rotate` turns the board `b` into `[b6, b3, b0, b7, b4, b1, b8, b5, b2]`;
the value of every cell `i` moves to the cell `quarterTurn i` (one step along
the corner cycle 0→2→8→6→0 or the edge cycle 1→5→7→3→1, the centre staying
in place). -/
theorem rotate_quarter_turn (b : Board) :
    (rotate b).toList =
        [b.get 6, b.get 3, b.get 0, b.get 7, b.get 4, b.get 1, b.get 8, b.get 5, b.get 2] ∧
      (∀ i, i < 9 → (rotate b).get (quarterTurn i) = b.get i) ∧
      (rotate b).get 4 = b.get 4 := by
  rw [rotate_eq]
  refine ⟨rfl, ?_, rfl⟩
  intro i hi
  interval_cases i <;> rfl

/-- C9: for every board and every sequence of values read from the button
pins, `get_btn_pressed` returns either 0xFF or an index `i <= 8` with
`board[i] == 0`; whatever the pins read, before and after the debounce delay,
the index of an occupied cell is never returned. -/
theorem get_btn_pressed_empty_cell (board : Board) (pin : Nat → Nat) :
    get_btn_pressed board pin = 0xFF ∨
      (get_btn_pressed board pin ≤ 8 ∧ board.get (get_btn_pressed board pin) = 0) :=
  get_btn_pressed_cols_sound board pin 3 0 0 (by omega)

/-- C10, as the specification states it, fails: on the board
`[1,1,0, 2,2,0, 0,0,0]` it is not the case that `cpu_turn` writes a 2 into
cell 2 and leaves every other cell unchanged. -/
theorem scenario_block_not_played :
    ¬ ((cpu_turn ⟨1, 1, 0, 2, 2, 0, 0, 0, 0⟩).get 2 = 2 ∧
        ∀ k, k < 9 → k ≠ 2 →
          (cpu_turn ⟨1, 1, 0, 2, 2, 0, 0, 0, 0⟩).get k =
            (⟨1, 1, 0, 2, 2, 0, 0, 0, 0⟩ : Board).get k) := by
  intro h
  exact absurd h.1 (by decide)

/-- C10, amended: on the board `[1,1,0, 2,2,0, 0,0,0]` the win check of
`check_wins_or_losses` comes before its block check, and `cpu_turn` plays
cell 5, completing its own row 3-4-5: after `cpu_turn`, `board[5] == 2`,
every other cell is unchanged (cell 2 stays empty) and player 2 has won. -/
theorem scenario_win_played :
    check_wins_or_losses ⟨1, 1, 0, 2, 2, 0, 0, 0, 0⟩ TRUE = 5 ∧
    cpu_turn ⟨1, 1, 0, 2, 2, 0, 0, 0, 0⟩ = ⟨1, 1, 0, 2, 2, 2, 0, 0, 0⟩ ∧
    (cpu_turn ⟨1, 1, 0, 2, 2, 0, 0, 0, 0⟩).get 5 = 2 ∧
    (∀ k, k < 9 → k ≠ 5 →
      (cpu_turn ⟨1, 1, 0, 2, 2, 0, 0, 0, 0⟩).get k =
        (⟨1, 1, 0, 2, 2, 0, 0, 0, 0⟩ : Board).get k) ∧
    game_winner (cpu_turn ⟨1, 1, 0, 2, 2, 0, 0, 0, 0⟩) FALSE = TRUE := by
  refine ⟨by decide, by decide, by decide, ?_, by decide⟩
  intro k hk hne
  interval_cases k <;> first | rfl | exact absurd rfl hne

/-- C11: for every board whose only mark is a single 1, `cpu_turn` never
plays an edge cell: when the 1 is in the centre it plays a corner, and when
the 1 is anywhere else it plays the centre. -/
theorem first_reply_not_edge (i : Nat) (hi : i < 9) :
    (i = 4 → ∃ j, (j = 0 ∨ j = 2 ∨ j = 6 ∨ j = 8) ∧
      cpu_turn (Board.empty.set i 1) = (Board.empty.set i 1).set j 2) ∧
    (i ≠ 4 → cpu_turn (Board.empty.set i 1) = (Board.empty.set i 1).set 4 2) ∧
    (∀ e, e = 1 ∨ e = 3 ∨ e = 5 ∨ e = 7 →
      (cpu_turn (Board.empty.set i 1)).get e = (Board.empty.set i 1).get e) := by
  refine ⟨?_, ?_, ?_⟩
  · intro h4
    subst h4
    exact ⟨0, Or.inl rfl, by decide⟩
  · intro h4
    interval_cases i <;> first | exact absurd rfl h4 | decide
  · intro e he
    rcases he with rfl | rfl | rfl | rfl <;> interval_cases i <;> decide

theorem first_reply_not_edge_witness :
    (4 : Nat) < 9 ∧
    (∃ j, (j = 0 ∨ j = 2 ∨ j = 6 ∨ j = 8) ∧
      cpu_turn (Board.empty.set 4 1) = (Board.empty.set 4 1).set j 2) ∧
    cpu_turn (Board.empty.set 7 1) = (Board.empty.set 7 1).set 4 2 :=
  ⟨by decide, (first_reply_not_edge 4 (by decide)).1 rfl,
    (first_reply_not_edge 7 (by decide)).2.1 (by decide)⟩

/-- C12: in every pass through the loop of `main`, with a button result that
is 0xFF or the index of an empty cell, every cell that is non-empty before
the pass has the same value after it; a cell that changes was empty and
receives the mark of the player to move or the computer's 2. -/
theorem cells_never_reset (s : State) (btn : Nat) (hb : ButtonResult s.board btn)
    (k : Nat) (hk : k < 9) :
    (s.board.get k ≠ 0 → (main_loop_body btn s).board.get k = s.board.get k) ∧
    ((main_loop_body btn s).board.get k ≠ s.board.get k →
      s.board.get k = 0 ∧
        ((main_loop_body btn s).board.get k = s.player_turn ∨
          (main_loop_body btn s).board.get k = 2)) := by
  obtain ⟨board, turn, winner, cpu⟩ := s
  simp only at hb ⊢
  -- the board after the button has been handled
  have hpress : ∃ b1 t1, (if btn ≤ 8 then
        ({ board := board.set btn turn, player_turn := if turn = 1 then 2 else 1,
           winner := winner, cpu_is_playing := cpu } : State)
      else ⟨board, turn, winner, cpu⟩) = ⟨b1, t1, winner, cpu⟩ ∧
      (b1.get k = board.get k ∨ (board.get k = 0 ∧ b1.get k = turn)) := by
    rcases hb with hb | ⟨hle, hz⟩
    · rw [if_neg (by omega)]
      exact ⟨board, turn, rfl, Or.inl rfl⟩
    · rw [if_pos hle]
      refine ⟨_, _, rfl, ?_⟩
      by_cases hkb : k = btn
      · subst hkb
        exact Or.inr ⟨hz, Board.get_set_self board k turn hk⟩
      · exact Or.inl (Board.get_set_other board btn k turn hkb)
  obtain ⟨b1, t1, he, h1⟩ := hpress
  -- the board after the reply of the computer
  have hreply : ∃ b2, (main_loop_body btn ⟨board, turn, winner, cpu⟩).board = b2 ∧
      (b2.get k = b1.get k ∨ (b1.get k = 0 ∧ b2.get k = 2)) := by
    unfold main_loop_body
    simp only [he]
    by_cases hcpu : cpu = TRUE ∧ t1 = 2
    · rw [if_pos hcpu]
      by_cases hover : (game_is_over b1 winner).1 = FALSE
      · rw [if_pos hover]
        refine ⟨_, rfl, ?_⟩
        simp only
        rcases cpu_turn_effect b1 with ⟨j, hj, hj0, hset⟩ | ⟨_, hsame⟩
        · rw [hset]
          by_cases hkj : k = j
          · subst hkj
            exact Or.inr ⟨hj0, Board.get_set_self b1 k 2 hk⟩
          · exact Or.inl (Board.get_set_other b1 j k 2 hkj)
        · rw [hsame]
          exact Or.inl rfl
      · rw [if_neg hover]
        exact ⟨_, rfl, Or.inl rfl⟩
    · rw [if_neg hcpu]
      exact ⟨_, rfl, Or.inl rfl⟩
  obtain ⟨b2, hb2, h2⟩ := hreply
  rw [hb2]
  constructor
  · intro hne
    rcases h1 with h1 | ⟨h1, _⟩
    · rcases h2 with h2 | ⟨h2, _⟩
      · rw [h2, h1]
      · rw [h1] at h2
        exact absurd h2 hne
    · exact absurd h1 hne
  · intro hne
    rcases h1 with h1 | ⟨h1, h1t⟩
    · rcases h2 with h2 | ⟨h2, h22⟩
      · rw [h2, h1] at hne
        exact absurd rfl hne
      · rw [h1] at h2
        exact ⟨h2, Or.inr h22⟩
    · rcases h2 with h2 | ⟨h2, h22⟩
      · rw [h2]
        exact ⟨h1, Or.inl h1t⟩
      · exact ⟨h1, Or.inr h22⟩

theorem cells_never_reset_witness :
    ButtonResult (⟨1, 0, 0, 0, 2, 0, 0, 0, 0⟩ : Board) 8 ∧
    (main_loop_body 8 ⟨⟨1, 0, 0, 0, 2, 0, 0, 0, 0⟩, 1, 0, TRUE⟩).board.get 0 = 1 ∧
    (main_loop_body 8 ⟨⟨1, 0, 0, 0, 2, 0, 0, 0, 0⟩, 1, 0, TRUE⟩).board.get 4 = 2 :=
  ⟨Or.inr ⟨by decide, rfl⟩,
    (cells_never_reset ⟨⟨1, 0, 0, 0, 2, 0, 0, 0, 0⟩, 1, 0, TRUE⟩ 8
      (Or.inr ⟨by decide, rfl⟩) 0 (by decide)).1 (by decide),
    (cells_never_reset ⟨⟨1, 0, 0, 0, 2, 0, 0, 0, 0⟩, 1, 0, TRUE⟩ 8
      (Or.inr ⟨by decide, rfl⟩) 4 (by decide)).1 (by decide)⟩

/-- C13: in every state at the head of the loop of `main` that is reachable
from the initial state, in two-player mode and in computer mode alike,
`player_turn` is 1 exactly when the board holds as many 1s as 2s and
`player_turn` is 2 exactly when the board holds one more 1 than 2s; no other
mark counts are reachable. -/
theorem turn_alternation (cpu_is_playing : Nat) (s : State)
    (h : LoopHead cpu_is_playing s) :
    (s.player_turn = 1 ∨ s.player_turn = 2) ∧
    (s.player_turn = 1 ↔ s.board.count 1 = s.board.count 2) ∧
    (s.player_turn = 2 ↔ s.board.count 1 = s.board.count 2 + 1) ∧
    (s.board.count 1 = s.board.count 2 ∨ s.board.count 1 = s.board.count 2 + 1) := by
  rcases turn_inv_loop_head cpu_is_playing s h with ⟨ht, hc⟩ | ⟨ht, hc⟩
  · refine ⟨Or.inl ht, ⟨fun _ => hc, fun _ => ht⟩, ⟨fun h2 => ?_, fun h2 => ?_⟩, Or.inl hc⟩
    · rw [ht] at h2
      exact absurd h2 (by decide)
    · omega
  · refine ⟨Or.inr ht, ⟨fun h1 => ?_, fun h1 => ?_⟩, ⟨fun _ => hc, fun _ => ht⟩, Or.inr hc⟩
    · rw [ht] at h1
      exact absurd h1 (by decide)
    · omega

theorem turn_alternation_witness :
    LoopHead TRUE (main_loop_body 4 (State.init TRUE)) ∧
    LoopHead FALSE (main_loop_body 4 (State.init FALSE)) ∧
    (main_loop_body 4 (State.init TRUE)).player_turn = 1 ∧
    (main_loop_body 4 (State.init FALSE)).player_turn = 2 ∧
    (main_loop_body 4 (State.init FALSE)).board.count 1 =
      (main_loop_body 4 (State.init FALSE)).board.count 2 + 1 :=
  have h1 : LoopHead TRUE (main_loop_body 4 (State.init TRUE)) :=
    LoopHead.step _ 4 LoopHead.init (by decide) (Or.inr ⟨by decide, by decide⟩)
  have h2 : LoopHead FALSE (main_loop_body 4 (State.init FALSE)) :=
    LoopHead.step _ 4 LoopHead.init (by decide) (Or.inr ⟨by decide, by decide⟩)
  ⟨h1, h2, by decide, by decide,
    (turn_alternation FALSE _ h2).2.2.1.1 (by decide)⟩

/-- C14: for every state with `winner != 0`, one run of the handler logs,
after the cell pulses, only the pulse of player 1's indicator (port bit 4,
0x10) when `winner == 1`, only that of player 2's indicator (port bit 0) when
`winner == 2`, and both when `winner` has any other non-zero value such as 3
(tie); this is so whatever `count` and `LED_state` hold, and both are left
unchanged. -/
theorem refresh_game_over (board : Board) (winner player_turn d p c l t : Nat)
    (hw : winner ≠ 0) (hp : p < 256) (h0 : p &&& 0x1F = 0) :
    (isr board winner player_turn (Leds.start d p c l t)).pulses.map low5 =
      board_pulses board ++
        (if winner = 1 then [(0x11, 0x10)]
          else if winner = 2 then [(0x11, 0x01)]
          else [(0x11, 0x01), (0x11, 0x10)]) ∧
    (isr board winner player_turn (Leds.start d p c l t)).count = c ∧
    (isr board winner player_turn (Leds.start d p c l t)).LED_state = l := by
  obtain ⟨hc, hl⟩ := (isr_frame board winner player_turn (Leds.start d p c l t)).1 hw
  refine ⟨?_, hc, hl⟩
  rw [(isr_trace board winner player_turn (Leds.start d p c l t) hp h0).2]
  unfold player_pulses
  rw [if_pos hw]
  rfl

theorem refresh_game_over_witness :
    (3 : Nat) ≠ 0 ∧ (0 : Nat) < 256 ∧ (0 : Nat) &&& 0x1F = 0 ∧
    (isr ⟨1, 2, 1, 1, 2, 2, 2, 1, 1⟩ 3 2 (Leds.start 0 0 17 1 5)).pulses.map low5 =
      board_pulses ⟨1, 2, 1, 1, 2, 2, 2, 1, 1⟩ ++ [(0x11, 0x01), (0x11, 0x10)] ∧
    (isr ⟨1, 2, 1, 1, 2, 2, 2, 1, 1⟩ 3 2 (Leds.start 0 0 17 1 5)).count = 17 ∧
    (isr ⟨1, 2, 1, 1, 2, 2, 2, 1, 1⟩ 3 2 (Leds.start 0 0 17 1 5)).LED_state = 1 :=
  ⟨by decide, by decide, by decide,
    refresh_game_over ⟨1, 2, 1, 1, 2, 2, 2, 1, 1⟩ 3 2 0 0 17 1 5 (by decide) (by decide)
      (by decide)⟩

/-- C15: for every board, one run of the handler logs, in cell order 0..8,
exactly one pulse for each cell holding 1 or 2 and none for any other cell.
Over the low five bits, each pulse has the two lines of its cell configured
as outputs and drives one of them high: the lower line for player 2, the
higher for player 1.  The 18 cell/player combinations and the 2 player
indicators use 20 pairwise distinct combinations of output pair and driven
line. -/
theorem refresh_cell_pulses (board : Board) (winner player_turn d p c l t : Nat)
    (hp : p < 256) (h0 : p &&& 0x1F = 0) :
    (isr_board_leds board (Leds.start d p c l t)).pulses.map low5 = board_pulses board ∧
    (isr board winner player_turn (Leds.start d p c l t)).pulses.map low5 =
      board_pulses board ++ player_pulses winner player_turn
        (isr board winner player_turn (Leds.start d p c l t)).LED_state ∧
    (∀ k, board.get k = 2 → cell_pulse board k = [(led_pair k, led_line k 2)]) ∧
    (∀ k, board.get k = 1 → cell_pulse board k = [(led_pair k, led_line k 1)]) ∧
    (∀ k, board.get k ≠ 1 → board.get k ≠ 2 → cell_pulse board k = []) ∧
    (∀ k, k < 10 → led_pair k = led_line k 2 ||| led_line k 1 ∧
      led_line k 2 < led_line k 1 ∧ led_pair k < 32 ∧
      (∃ i, i < 5 ∧ led_line k 2 = 1 <<< i) ∧ (∃ j, j < 5 ∧ led_line k 1 = 1 <<< j)) ∧
    led_table.length = 20 ∧ led_table.Nodup := by
  refine ⟨?_, ?_, ?_, ?_, ?_, ?_, by decide, by decide⟩
  · rw [(isr_board_leds_trace board (Leds.start d p c l t) hp h0).2]
    rfl
  · rw [(isr_trace board winner player_turn (Leds.start d p c l t) hp h0).2]
    rfl
  · intro k hk
    unfold cell_pulse
    rw [if_pos hk]
  · intro k hk
    unfold cell_pulse
    rw [if_neg (by omega), if_pos hk]
  · intro k h1 h2
    unfold cell_pulse
    rw [if_neg h2, if_neg h1]
  · intro k hk
    interval_cases k <;> decide

theorem refresh_cell_pulses_witness :
    (0 : Nat) < 256 ∧ (0 : Nat) &&& 0x1F = 0 ∧
    (isr_board_leds ⟨1, 2, 0, 0, 2, 0, 0, 0, 1⟩ (Leds.start 0 0 0 0 0)).pulses.map low5 =
      [(0x03, 0x02), (0x06, 0x02), (0x05, 0x01), (0x12, 0x10)] :=
  ⟨by decide, by decide,
    (refresh_cell_pulses ⟨1, 2, 0, 0, 2, 0, 0, 0, 1⟩ 0 1 0 0 0 0 0 (by decide)
      (by decide)).1.trans (by decide)⟩

/-- C16 fails on the code: in a tie, with all nine cells occupied and
`winner == 3`, one run of the handler logs 11 pulses (nine cells and both
indicators), and 11 x 800 = 8800 microseconds is not less than the period
of 8192, so the run does not complete before the next overflow is due. -/
theorem refresh_overruns_tick_in_tie :
    (isr ⟨1, 2, 1, 1, 2, 2, 2, 1, 1⟩ 3 2 (Leds.start 0 0 0 0 0)).pulses.length = 11 ∧
    ¬ ((isr ⟨1, 2, 1, 1, 2, 2, 2, 1, 1⟩ 3 2 (Leds.start 0 0 0 0 0)).pulses.length * LED_DELAY
        < TICK_PERIOD) := by
  decide

/-- C17: for every board and every rotation at which the computer-role scan
of `check_fork_states` (`b = 2`) matches one of its two patterns, the cell
index it returns is an empty cell of the real board, and after a 2 is
written there at least two distinct lines each hold two 2s and one empty
cell.  The same holds for the cell the whole scan returns. -/
theorem fork_rule_sound (board : Board) (loc : Nat) :
    (fork_patterns board TRUE 2 board 0 = some loc → board.forkAt loc) ∧
    (fork_patterns board TRUE 2 (rotate board) 1 = some loc → board.forkAt loc) ∧
    (fork_patterns board TRUE 2 (rotate (rotate board)) 2 = some loc → board.forkAt loc) ∧
    (fork_patterns board TRUE 2 (rotate (rotate (rotate board))) 3 = some loc →
      board.forkAt loc) ∧
    (check_fork_states_loop board TRUE 2 4 0 (copy_board board) = some loc →
      board.forkAt loc) := by
  obtain ⟨s0, s1, s2, s3⟩ := fork_patterns_computer board loc
  refine ⟨s0, s1, s2, s3, ?_⟩
  intro h
  rw [copy_board_eq] at h
  rcases fork_loop_some board TRUE 2 board loc h with h | h | h | h
  · exact s0 h
  · exact s1 h
  · exact s2 h
  · exact s3 h

theorem fork_rule_sound_witness :
    check_fork_states_loop ⟨1, 0, 0, 0, 2, 1, 0, 0, 2⟩ TRUE 2 4 0
        (copy_board ⟨1, 0, 0, 0, 2, 1, 0, 0, 2⟩) = some 6 ∧
      (⟨1, 0, 0, 0, 2, 1, 0, 0, 2⟩ : Board).forkAt 6 :=
  ⟨by decide, (fork_rule_sound ⟨1, 0, 0, 0, 2, 1, 0, 0, 2⟩ 6).2.2.2.2 (by decide)⟩

/-- C18: for every board of cells 0, 1, 2 on which neither player has a
completed line, `check_wins_or_losses(TRUE)` returns 0xFF, no computer fork
pattern matches, and in some rotation player 1 holds two diagonally opposite
corners with the three cells of the pattern empty, `cpu_turn` plays an empty
edge cell, and after that move some line holds two 2s and an empty third
cell. -/
theorem fork_block_fallback (board : Board) (hv : board.Valid) (hn1 : ¬ board.hasLine 1)
    (_hn2 : ¬ board.hasLine 2) (hw : check_wins_or_losses board TRUE = 0xFF)
    (_hf : check_fork_states_loop board TRUE 2 4 0 (copy_board board) = none)
    (hp : ∃ t, (t = board ∨ t = rotate board ∨ t = rotate (rotate board) ∨
        t = rotate (rotate (rotate board))) ∧
      t.get 0 = 1 ∧ t.get 8 = 1 ∧ t.get 3 = 0 ∧ t.get 6 = 0 ∧ t.get 7 = 0) :
    ∃ e, (e = 1 ∨ e = 3 ∨ e = 5 ∨ e = 7) ∧ board.get e = 0 ∧
      cpu_turn board = board.set e 2 ∧ (cpu_turn board).hasOpenLine 2 := by
  rcases fallback_boards board hv hn1 hw hp with rfl | rfl
  · exact ⟨1, Or.inl rfl, rfl, by decide,
      (1, 4, 7), by decide, 7, Or.inr (Or.inr ⟨rfl, by decide, by decide, by decide⟩)⟩
  · exact ⟨1, Or.inl rfl, rfl, by decide,
      (1, 4, 7), by decide, 7, Or.inr (Or.inr ⟨rfl, by decide, by decide, by decide⟩)⟩

theorem fork_block_fallback_witness :
    ∃ e, (e = 1 ∨ e = 3 ∨ e = 5 ∨ e = 7) ∧ (⟨1, 0, 0, 0, 2, 0, 0, 0, 1⟩ : Board).get e = 0 ∧
      cpu_turn ⟨1, 0, 0, 0, 2, 0, 0, 0, 1⟩ = (⟨1, 0, 0, 0, 2, 0, 0, 0, 1⟩ : Board).set e 2 ∧
      (cpu_turn ⟨1, 0, 0, 0, 2, 0, 0, 0, 1⟩).hasOpenLine 2 :=
  fork_block_fallback ⟨1, 0, 0, 0, 2, 0, 0, 0, 1⟩
    (by intro i hi; interval_cases i <;> decide)
    (by rw [hasLine_iff]; decide) (by rw [hasLine_iff]; decide) (by decide) (by decide)
    ⟨⟨1, 0, 0, 0, 2, 0, 0, 0, 1⟩, Or.inl rfl, rfl, rfl, rfl, rfl, rfl⟩

/-- C19: starting from `count == 0` and `LED_state == 0`, while
`winner == 0`, after `n` runs of the handler `count == n mod 46` (so
`count < 46`) and `LED_state == (n / 46) mod 2`.  A run entered with
`count < 45` increments `count` and keeps `LED_state`; a run entered with
`count == 45`, every 46th, sets `count` to 0 and toggles `LED_state`.  In a
run the indicator of the player to move (player 1's when `player_turn == 1`,
otherwise player 2's) is pulsed exactly when `LED_state == 1` after that
update. -/
theorem blink_phase (ticks : List (Board × Nat)) (board : Board)
    (player_turn d p c l t : Nat) :
    ((isr_ticks ticks (Leds.start d p 0 0 t)).count = ticks.length % 46 ∧
      (isr_ticks ticks (Leds.start d p 0 0 t)).count < 46 ∧
      (isr_ticks ticks (Leds.start d p 0 0 t)).LED_state = (ticks.length / 46) % 2) ∧
    (c < 45 →
      (isr board 0 player_turn (Leds.start d p c l t)).count = c + 1 ∧
      (isr board 0 player_turn (Leds.start d p c l t)).LED_state = l) ∧
    (c = 45 →
      (isr board 0 player_turn (Leds.start d p c l t)).count = 0 ∧
      (isr board 0 player_turn (Leds.start d p c l t)).LED_state = l ^^^ 1) ∧
    (p < 256 → p &&& 0x1F = 0 →
      (isr board 0 player_turn (Leds.start d p c l t)).pulses.map low5 =
        board_pulses board ++
          (if (isr board 0 player_turn (Leds.start d p c l t)).LED_state = 1 then
            (if player_turn = 1 then [(0x11, 0x10)] else [(0x11, 0x01)])
          else [])) := by
  obtain ⟨hc, hl⟩ := (isr_frame board 0 player_turn (Leds.start d p c l t)).2.1 rfl
  have hcs : (Leds.start d p c l t).count = c := rfl
  have hls : (Leds.start d p c l t).LED_state = l := rfl
  rw [hcs] at hc hl
  rw [hls] at hl
  refine ⟨?_, ?_, ?_, ?_⟩
  · obtain ⟨h1, h2⟩ := isr_ticks_phase ticks (Leds.start d p 0 0 t) 0 rfl rfl
    rw [Nat.zero_add] at h1 h2
    exact ⟨h1, by rw [h1]; exact Nat.mod_lt _ (by decide), h2⟩
  · intro h
    rw [hc, hl]
    constructor
    · split_ifs <;> omega
    · rw [if_neg (by omega)]
  · intro h
    rw [hc, hl, h]
    exact ⟨rfl, rfl⟩
  · intro hp h0
    rw [(isr_trace board 0 player_turn (Leds.start d p c l t) hp h0).2]
    rfl

theorem blink_phase_witness :
    (isr_ticks (List.replicate 50 (Board.empty, 1)) (Leds.start 0 0 0 0 0)).count = 4 ∧
    (isr_ticks (List.replicate 50 (Board.empty, 1)) (Leds.start 0 0 0 0 0)).LED_state = 1 ∧
    (isr Board.empty 0 1 (Leds.start 0 0 45 0 0)).LED_state = 1 ∧
    (isr Board.empty 0 1 (Leds.start 0 0 45 0 0)).pulses.map low5 = [(0x11, 0x10)] ∧
    (isr Board.empty 0 1 (Leds.start 0 0 7 0 0)).count = 8 :=
  ⟨(blink_phase (List.replicate 50 (Board.empty, 1)) Board.empty 1 0 0 0 0 0).1.1.trans
      (by decide),
    (blink_phase (List.replicate 50 (Board.empty, 1)) Board.empty 1 0 0 0 0 0).1.2.2.trans
      (by decide),
    ((blink_phase [] Board.empty 1 0 0 45 0 0).2.2.1 rfl).2,
    ((blink_phase [] Board.empty 1 0 0 45 0 0).2.2.2 (by decide) (by decide)).trans (by decide),
    ((blink_phase [] Board.empty 1 0 0 7 0 0).2.1 (by decide)).1⟩

/-- C20 fails on the code: whatever `LED_DDR` holds on entry, one run of the
handler leaves it at 0xA0.  Its five indicator bits end cleared, but bits 5
to 7 end as 1, 0, 1: from `LED_DDR == 0`, where bit 5 (the direction bit of
`CPU_SW`) is 0, the run ends with bit 5 set. -/
theorem refresh_overwrites_ddr_high_bits :
    (∀ (board : Board) (winner player_turn : Nat) (s : Leds),
      (isr board winner player_turn s).ddr = 0xA0) ∧
    (0xA0 : Nat) &&& 0x1F = 0 ∧
    (Leds.start 0 0 0 0 0).ddr &&& 0x20 = 0 ∧
    (isr Board.empty 0 1 (Leds.start 0 0 0 0 0)).ddr &&& 0x20 = 0x20 ∧
    (isr Board.empty 0 1 (Leds.start 0 0 0 0 0)).ddr &&& 0xE0 ≠
      (Leds.start 0 0 0 0 0).ddr &&& 0xE0 :=
  ⟨isr_ddr, by decide, by decide, by decide, by decide⟩

end TicTacToe
